import Mathlib

/-!
Shallow embedding of the ADW isolated-phase scripts
(src/adws/adw_plan_iso.py, adw_build_iso.py, adw_test_iso.py,
adw_review_iso.py, adw_document_iso.py).

Strings are modelled as lists of characters.  The external collaborators
(state store, worktree validator, agent gateway, patch generator) are
supplied as oracle inputs in an environment record; each phase script's
`main` is translated into a Lean function from that environment to a
result record capturing exit code, agent/patch calls, log entries and the
final in-memory state.
-/

/-- Character strings are modelled as lists of characters. -/
abbrev Str := List Char

/-- View a Lean string literal as a character list. -/
def cs (s : String) : Str := s.data

/-- The backtick character, spelled via its code point (it cannot appear
in a Lean character literal here). -/
def tick : Char := Char.ofNat 96

/-- The newline character. -/
def nl : Char := '\n'

/-- Python `str.strip()` whitespace class. -/
def pyWs (c : Char) : Bool :=
  c == ' ' || c == '\t' || c == '\n' || c == '\r' || c == '\x0B' || c == '\x0C'

/-- Python `str.strip()`: remove leading and trailing whitespace. -/
def strip (l : Str) : Str :=
  ((l.dropWhile pyWs).reverse.dropWhile pyWs).reverse

/-- Boolean prefix test on character lists. -/
def isPre : Str → Str → Bool
  | [], _ => true
  | _ :: _, [] => false
  | a :: as, b :: bs => a == b && isPre as bs

/-- Python `str.find`: index of the first occurrence of `n` in the list,
`none` standing for Python's `-1`. -/
def findSub (n : Str) : Str → Option Nat
  | [] => if isPre n [] then some 0 else none
  | c :: t => if isPre n (c :: t) then some 0 else (findSub n t).map (fun i => i + 1)

/-- Python `in` substring test. -/
def containsSub (n h : Str) : Bool := (findSub n h).isSome

/-- Python `str.find(sub, start)`: search from index `s`. -/
def findFrom (n h : Str) (s : Nat) : Option Nat :=
  (findSub n (h.drop s)).map (fun i => i + s)

/-- Python slicing `h[s:e]` (for `0 ≤ s ≤ e` within bounds). -/
def pySlice (h : Str) (s e : Nat) : Str := (h.drop s).take (e - s)

/-- The three-backtick fence marker. -/
def fence : Str := [tick, tick, tick]

/-- The json-tagged fence opener, Python's "```json". -/
def fenceJson : Str := [tick, tick, tick, 'j', 's', 'o', 'n']

/-- The one-character string "\x7b" (opening brace). -/
def braceStr : Str := ['\x7b']

/-- The one-character string containing a newline. -/
def nlStr : Str := [nl]

/-- The review phase's payload extractor (adw_review_iso.py lines 104-122):
strip the response, then peel a json-tagged fenced block, else a generic
fenced block (skipping a language tag up to the first newline), else keep
the stripped text unchanged. -/
def extractPayload (raw : Str) : Str :=
  let output := strip raw
  if containsSub fenceJson output then
    let start := (findSub fenceJson output).getD 0 + 7
    match findFrom fence output start with
    | some e => strip (pySlice output start e)
    | none => output
  else if containsSub fence output && containsSub braceStr output then
    let s0 := (findSub fence output).getD 0 + 3
    let start :=
      match findFrom nlStr output s0 with
      | some n => n + 1
      | none => s0
    match findFrom fence output start with
    | some e => strip (pySlice output start e)
    | none => output
  else output

/-! ### A model of `json.loads`

The phases parse agent payloads with Python's `json.loads`.  The parser
below models it on character lists: JSON values are represented by `JVal`
(numbers keep their source lexeme, which is also what Python's `str()`
prints for integers), and parsing is a fueled recursive descent that
accepts exactly the JSON surface syntax the payloads use. -/

/-- JSON whitespace (as accepted by `json.loads` between tokens). -/
def jWs (c : Char) : Bool :=
  c == ' ' || c == '\t' || c == '\n' || c == '\r'

/-- JSON values; numbers are kept as their source lexeme. -/
inductive JVal where
  | jnull
  | jbool (b : Bool)
  | jnum (lit : Str)
  | jstr (s : Str)
  | jarr (items : List JVal)
  | jobj (fields : List (Str × JVal))

instance : Inhabited JVal := ⟨JVal.jnull⟩

/-- Parse the body of a JSON string after the opening quote; returns the
decoded content and the remaining input after the closing quote. -/
def parseStringBody : Nat → Str → Option (Str × Str)
  | 0, _ => none
  | _, [] => none
  | fuel + 1, c :: rest =>
    if c == '"' then some ([], rest)
    else if c == '\\' then
      match rest with
      | [] => none
      | e :: rest2 =>
        let esc : Option Char :=
          if e == '"' then some '"'
          else if e == '\\' then some '\\'
          else if e == '/' then some '/'
          else if e == 'b' then some (Char.ofNat 8)
          else if e == 'f' then some (Char.ofNat 12)
          else if e == 'n' then some '\n'
          else if e == 'r' then some '\r'
          else if e == 't' then some '\t'
          else none
        match esc with
        | some ch => (parseStringBody fuel rest2).map (fun p => (ch :: p.1, p.2))
        | none => none
    else if c.toNat < 32 then none
    else (parseStringBody fuel rest).map (fun p => (c :: p.1, p.2))

/-- Longest run of decimal digits at the front. -/
def digitRun (l : Str) : Str := l.takeWhile (fun c => c.isDigit)

/-- Optional fraction part of a JSON number. -/
def parseFrac (l : Str) : Option (Str × Str) :=
  match l with
  | c :: t =>
    if c == '.' then
      let fd := digitRun t
      if fd.isEmpty then none else some (c :: fd, t.drop fd.length)
    else some ([], l)
  | [] => some ([], l)

/-- Optional exponent part of a JSON number. -/
def parseExp (l : Str) : Option (Str × Str) :=
  match l with
  | c :: t =>
    if c == 'e' || c == 'E' then
      let sp : Str × Str :=
        match t with
        | d :: t2 => if d == '+' || d == '-' then ([d], t2) else ([], t)
        | [] => ([], t)
      let ed := digitRun sp.2
      if ed.isEmpty then none else some (c :: (sp.1 ++ ed), sp.2.drop ed.length)
    else some ([], l)
  | [] => some ([], l)

/-- Lex a JSON number, returning its lexeme and the rest of the input. -/
def parseNumLex (l : Str) : Option (Str × Str) :=
  let sp : Str × Str :=
    match l with
    | c :: t => if c == '-' then ([c], t) else ([], l)
    | [] => ([], l)
  let d := digitRun sp.2
  if d.isEmpty then none
  else if 1 < d.length && d.headD '0' == '0' then none
  else
    let l2 := sp.2.drop d.length
    match parseFrac l2 with
    | none => none
    | some fr =>
      match parseExp fr.2 with
      | none => none
      | some ex => some (sp.1 ++ d ++ fr.1 ++ ex.1, ex.2)

mutual

/-- Parse one JSON value (fueled recursive descent). -/
def parseVal : Nat → Str → Option (JVal × Str)
  | 0, _ => none
  | fuel + 1, l0 =>
    let l := l0.dropWhile jWs
    match l with
    | [] => none
    | c :: rest =>
      if c == '"' then
        (parseStringBody (rest.length + 1) rest).map (fun p => (JVal.jstr p.1, p.2))
      else if c == '\x7b' then
        let r := rest.dropWhile jWs
        match r with
        | d :: r2 =>
          if d == '\x7d' then some (JVal.jobj [], r2)
          else (parseObjPairs fuel rest).map (fun p => (JVal.jobj p.1, p.2))
        | [] => none
      else if c == '[' then
        let r := rest.dropWhile jWs
        match r with
        | d :: r2 =>
          if d == ']' then some (JVal.jarr [], r2)
          else (parseArrItems fuel rest).map (fun p => (JVal.jarr p.1, p.2))
        | [] => none
      else if isPre (cs "true") l then some (JVal.jbool true, l.drop 4)
      else if isPre (cs "false") l then some (JVal.jbool false, l.drop 5)
      else if isPre (cs "null") l then some (JVal.jnull, l.drop 4)
      else if c == '-' || c.isDigit then
        (parseNumLex l).map (fun p => (JVal.jnum p.1, p.2))
      else none

/-- Parse the items of a non-empty JSON array up to and including `]`. -/
def parseArrItems : Nat → Str → Option (List JVal × Str)
  | 0, _ => none
  | fuel + 1, l =>
    match parseVal fuel l with
    | none => none
    | some vr =>
      let r1 := vr.2.dropWhile jWs
      match r1 with
      | c :: r2 =>
        if c == ',' then (parseArrItems fuel r2).map (fun p => (vr.1 :: p.1, p.2))
        else if c == ']' then some ([vr.1], r2)
        else none
      | [] => none

/-- Parse the members of a non-empty JSON object up to and including the
closing brace. -/
def parseObjPairs : Nat → Str → Option (List (Str × JVal) × Str)
  | 0, _ => none
  | fuel + 1, l =>
    let l1 := l.dropWhile jWs
    match l1 with
    | c :: rest =>
      if c == '"' then
        match parseStringBody (rest.length + 1) rest with
        | none => none
        | some kr =>
          let r1 := kr.2.dropWhile jWs
          match r1 with
          | d :: r2 =>
            if d == ':' then
              match parseVal fuel r2 with
              | none => none
              | some vr =>
                let r4 := vr.2.dropWhile jWs
                match r4 with
                | e :: r5 =>
                  if e == ',' then
                    (parseObjPairs fuel r5).map (fun p => ((kr.1, vr.1) :: p.1, p.2))
                  else if e == '\x7d' then some ([(kr.1, vr.1)], r5)
                  else none
                | [] => none
            else none
          | [] => none
      else none
    | [] => none

end

/-- Model of Python's `json.loads` on a character list: parse one value
and require only whitespace to remain. -/
def jsonParse (l : Str) : Option JVal :=
  match parseVal (l.length + 1) l with
  | some vr => if (vr.2.dropWhile jWs).isEmpty then some vr.1 else none
  | none => none

/-! ### Shared phase infrastructure -/

/-- The agent gateway's reply: a success flag and free-text output
(adw_modules.agent.execute_template's response, used only through these
two fields by the phase scripts). -/
structure AgentResponse where
  success : Bool
  output : Str
deriving DecidableEq

/-- Logging severities used by the phase scripts. -/
inductive LogLevel where
  | info
  | warning
  | err
deriving DecidableEq

/-- One emitted log line. -/
structure LogEntry where
  level : LogLevel
  msg : Str
deriving DecidableEq

/-- An info-level log line. -/
def infoLog (m : Str) : LogEntry := ⟨LogLevel.info, m⟩

/-- A warning-level log line. -/
def warnLog (m : Str) : LogEntry := ⟨LogLevel.warning, m⟩

/-- An error-level log line. -/
def errLog (m : Str) : LogEntry := ⟨LogLevel.err, m⟩

/-- Modelled from the spec: the persisted run state
(`adw_modules.state.ADWState`, whose source is not part of this excerpt).
Per the spec's RunState, it carries the run identifier, issue reference,
workspace path and branch (set once by planning), the reserved port pair,
and the plan-file reference; `get` on an absent field yields Python's
`None`, modelled by `Option`. -/
structure ADWSt where
  adwId : Option Str
  issueNumber : Option Str
  worktreePath : Option Str
  branchName : Option Str
  backendPort : Option Nat
  frontendPort : Option Nat
  planFile : Option Str
  issueClass : Option Str
deriving DecidableEq

/-- Modelled from the spec: `ADWState.update(issue_class=...)`. -/
def setIssueClass (st : ADWSt) (c : Str) : ADWSt :=
  ⟨st.adwId, st.issueNumber, st.worktreePath, st.branchName,
   st.backendPort, st.frontendPort, st.planFile, some c⟩

/-- Modelled from the spec: `ADWState.update(worktree_path=..., branch_name=...,
backend_port=..., frontend_port=...)` as done by the planning phase. -/
def setWorktreeFields (st : ADWSt) (wt b : Str) (bp fp : Nat) : ADWSt :=
  ⟨st.adwId, st.issueNumber, some wt, some b,
   some bp, some fp, st.planFile, st.issueClass⟩

/-- Modelled from the spec: `ADWState.update(plan_file=...)`. -/
def setPlanFile (st : ADWSt) (f : Str) : ADWSt :=
  ⟨st.adwId, st.issueNumber, st.worktreePath, st.branchName,
   st.backendPort, st.frontendPort, some f, st.issueClass⟩

/-- Python f-string rendering of a value that may be `None`. -/
def optStr : Option Str → Str
  | some s => s
  | none => cs "None"

/-- Decimal rendering of a natural number. -/
def natStr (n : Nat) : Str := Nat.toDigits 10 n

/-- A recorded `AgentTemplateRequest` handed to `execute_template`. -/
structure ReqRec where
  agentName : Str
  slashCommand : Str
  args : List Str
  workingDir : Option Str
deriving DecidableEq

/-! ### Review phase (adw_review_iso.py) -/

/-- A recorded call to `create_and_implement_patch` made by the review
resolution loop, with the arguments the script passes. -/
structure PatchCall where
  resolution : JVal
  specPath : Str
  screenshots : Option JVal
  workingDir : Option Str

/-- Oracle inputs for one review-phase invocation: the loaded state, the
worktree validation outcome, the located spec file, the review agent's
response, and the result of the k-th patch attempt. -/
structure ReviewEnv where
  stateLoaded : Option ADWSt
  validOk : Bool
  validErr : Str
  specFile : Option Str
  reviewResp : AgentResponse
  patchResp : Nat → AgentResponse

/-- Result of one review-phase invocation.  `crashed` marks a Python
exception escaping `main` (e.g. a `KeyError`), which also terminates the
process with a non-zero status. -/
structure ReviewOut where
  exitCode : Nat
  crashed : Bool
  reviewRequests : List ReqRec
  patchCalls : List PatchCall
  logs : List LogEntry
  savedPhases : List Str
  finalState : Option ADWSt

/-- Python `dict.get` on a parsed JSON object (later duplicate keys win,
as in a Python dict built by `json.loads`). -/
def jGet (kvs : List (Str × JVal)) (k : Str) : Option JVal :=
  kvs.foldl (fun acc p => if p.1 = k then some p.2 else acc) none

/-- View a JSON value as an object, if it is one. -/
def asObj : JVal → Option (List (Str × JVal))
  | JVal.jobj kvs => some kvs
  | _ => none

/-- Python `str()` of a parsed JSON value as used in the scripts'
f-strings.  Scalars are rendered exactly; the scripts never interpolate a
container where a claim looks at the text, so containers are abbreviated. -/
def jshow : JVal → Str
  | JVal.jnull => cs "None"
  | JVal.jbool true => cs "True"
  | JVal.jbool false => cs "False"
  | JVal.jnum lit => lit
  | JVal.jstr s => s
  | JVal.jarr _ => cs "[...]"
  | JVal.jobj _ => cs "\x7b...\x7d"

/-- Field key "issue_severity". -/
def sevKey : Str := cs "issue_severity"

/-- Field key "issue_description". -/
def descKey : Str := cs "issue_description"

/-- Field key "issue_resolution". -/
def resKey : Str := cs "issue_resolution"

/-- Field key "review_issue_number". -/
def numKey : Str := cs "review_issue_number"

/-- Field key "screenshot_path". -/
def ssKey : Str := cs "screenshot_path"

/-- Field key "review_issues". -/
def issuesKey : Str := cs "review_issues"

/-- Field key "review_summary". -/
def summaryKey : Str := cs "review_summary"

/-- The comprehension's filter (adw_review_iso.py lines 128-132):
`issue.get("issue_severity") == "blocker"`. -/
def isBlocker (i : JVal) : Bool :=
  match asObj i with
  | some kvs =>
    match jGet kvs sevKey with
    | some (JVal.jstr s) => s == cs "blocker"
    | _ => false
  | none => false

/-- Outcome of the resolution loop body: logs and patch calls emitted, an
exit code if the loop terminated the process, and whether it crashed. -/
structure LoopRes where
  logs : List LogEntry
  calls : List PatchCall
  exited : Option Nat
  crashed : Bool

/-- The review resolution loop (adw_review_iso.py lines 138-157): one
patch attempt per blocking issue, in order; abort with exit 1 when a
patch fails.  `k` numbers the patch attempts for the oracle. -/
def resolveLoop (spec : Str) (wt : Option Str) (pr : Nat → AgentResponse) :
    List JVal → Nat → LoopRes
  | [], _ => ⟨[], [], none, false⟩
  | i :: rest, k =>
    match asObj i with
    | none => ⟨[], [], some 1, true⟩
    | some kvs =>
      match jGet kvs numKey, jGet kvs descKey with
      | some num, some desc =>
        let l0 := infoLog (cs "Resolving issue " ++ jshow num ++ cs ": " ++ jshow desc)
        match jGet kvs resKey with
        | some res =>
          let call : PatchCall := ⟨res, spec, jGet kvs ssKey, wt⟩
          let resp := pr k
          if resp.success then
            let tail := resolveLoop spec wt pr rest (k + 1)
            ⟨l0 :: infoLog (cs "Resolved issue " ++ jshow num) :: tail.logs,
             call :: tail.calls, tail.exited, tail.crashed⟩
          else
            ⟨[l0, errLog (cs "Failed to resolve issue: " ++ resp.output)],
             [call], some 1, false⟩
        | none => ⟨[l0], [], some 1, true⟩
      | _, _ => ⟨[], [], some 1, true⟩

/-- The skip-resolution reporting loop (adw_review_iso.py lines 161-162):
log each blocking issue's description; a missing key raises `KeyError`. -/
def skipLoop : List JVal → List LogEntry × Bool
  | [] => ([], false)
  | i :: rest =>
    match asObj i with
    | some kvs =>
      match jGet kvs descKey with
      | some d =>
        let t := skipLoop rest
        (errLog (cs "  - " ++ jshow d) :: t.1, t.2)
      | none => ([], true)
    | none => ([], true)

/-- `main` of adw_review_iso.py: load state, validate the worktree, find
the spec, run the review agent, extract and parse its JSON payload, then
either resolve blocking issues (one patch per issue, aborting on a failed
patch) or, with `--skip-resolution`, abort reporting them; finally save
state and exit 0. -/
def reviewMain (adwId : Str) (skipResolution : Bool) (env : ReviewEnv) : ReviewOut :=
  match env.stateLoaded with
  | none =>
    ⟨1, false, [], [], [errLog (cs "No state found for ADW ID: " ++ adwId)], [], none⟩
  | some st =>
    let l1 := [infoLog (cs "Validating worktree")]
    if !env.validOk then
      ⟨1, false, [], [],
       l1 ++ [errLog (cs "Worktree validation failed: " ++ env.validErr)], [], some st⟩
    else
      let wt := st.worktreePath
      let l2 := l1 ++ [infoLog (cs "Using worktree: " ++ optStr wt)]
      match env.specFile with
      | none =>
        ⟨1, false, [], [], l2 ++ [errLog (cs "No spec file found")], [], some st⟩
      | some spec =>
        let l3 := l2 ++ [infoLog (cs "Using spec file: " ++ spec),
                         infoLog (cs "Running review")]
        let req : ReqRec :=
          ⟨cs "review_agent", cs "/review", [adwId, spec, cs "review_agent"], wt⟩
        if !env.reviewResp.success then
          ⟨1, false, [req], [],
           l3 ++ [errLog (cs "Review failed to execute: " ++ env.reviewResp.output)],
           [], some st⟩
        else
          match jsonParse (extractPayload env.reviewResp.output) with
          | none =>
            ⟨1, false, [req], [],
             l3 ++ [errLog (cs "Failed to parse review results"),
                    errLog (cs "Review output: " ++ env.reviewResp.output)],
             [], some st⟩
          | some j =>
            match asObj j with
            | none => ⟨1, true, [req], [], l3, [], some st⟩
            | some kvs =>
              let l4 := l3 ++ [infoLog (cs "Review completed: " ++
                (match jGet kvs summaryKey with
                 | some v => jshow v
                 | none => cs "No summary"))]
              match jGet kvs issuesKey with
              | none =>
                ⟨0, false, [req], [], l4, [cs "adw_review_iso"], some st⟩
              | some (JVal.jarr xs) =>
                if xs.all (fun i => (asObj i).isSome) then
                  let blocking := xs.filter isBlocker
                  if !blocking.isEmpty && !skipResolution then
                    let l5 := l4 ++ [warnLog (cs "Found " ++ natStr blocking.length ++
                      cs " blocking issues, attempting resolution")]
                    let lr := resolveLoop spec wt env.patchResp blocking 0
                    match lr.exited with
                    | some c => ⟨c, lr.crashed, [req], lr.calls, l5 ++ lr.logs, [], some st⟩
                    | none =>
                      ⟨0, false, [req], lr.calls, l5 ++ lr.logs,
                       [cs "adw_review_iso"], some st⟩
                  else if !blocking.isEmpty then
                    let l5 := l4 ++ [errLog (cs "Found " ++ natStr blocking.length ++
                      cs " blocking issues (resolution skipped)")]
                    let sk := skipLoop blocking
                    ⟨1, sk.2, [req], [], l5 ++ sk.1, [], some st⟩
                  else
                    ⟨0, false, [req], [], l4, [cs "adw_review_iso"], some st⟩
                else ⟨1, true, [req], [], l4, [], some st⟩
              | some _ => ⟨1, true, [req], [], l4, [], some st⟩

/-! ### Test phase (adw_test_iso.py) -/

/-- Oracle inputs for one test-phase invocation. -/
structure TestEnv where
  stateLoaded : Option ADWSt
  validOk : Bool
  validErr : Str
  testResp : AgentResponse

/-- Result of a build- or test-phase invocation: exit code, number of
agent-gateway calls made, logs, saved phase labels and final state. -/
structure PhaseOut where
  exitCode : Nat
  agentCalls : Nat
  logs : List LogEntry
  savedPhases : List Str
  finalState : Option ADWSt
deriving DecidableEq

/-- `main` of adw_test_iso.py: load state, validate the worktree, run the
test agent, log failures as a warning, save state, then exit 0 on test
success and 1 on test failure (line 102). -/
def testMain (adwId : Str) (env : TestEnv) : PhaseOut :=
  match env.stateLoaded with
  | none => ⟨1, 0, [errLog (cs "No state found for ADW ID: " ++ adwId)], [], none⟩
  | some st =>
    let l1 := [infoLog (cs "Validating worktree")]
    if !env.validOk then
      ⟨1, 0, l1 ++ [errLog (cs "Worktree validation failed: " ++ env.validErr)],
       [], some st⟩
    else
      let l2 := l1 ++ [infoLog (cs "Using worktree: " ++ optStr st.worktreePath),
                       infoLog (cs "Running test suite")]
      let l3 := l2 ++ [if env.testResp.success then infoLog (cs "All tests passed")
                       else warnLog (cs "Tests had failures: " ++ env.testResp.output)]
      ⟨if env.testResp.success then 0 else 1, 1, l3, [cs "adw_test_iso"], some st⟩

/-! ### Build phase (adw_build_iso.py) -/

/-- Oracle inputs for one build-phase invocation. -/
structure BuildEnv where
  stateLoaded : Option ADWSt
  validOk : Bool
  validErr : Str
  specFile : Option Str
  implementResp : AgentResponse

/-- `main` of adw_build_iso.py: load state, validate the worktree, find
the spec file, implement the plan via the agent, save state. -/
def buildMain (adwId : Str) (env : BuildEnv) : PhaseOut :=
  match env.stateLoaded with
  | none => ⟨1, 0, [errLog (cs "No state found for ADW ID: " ++ adwId)], [], none⟩
  | some st =>
    let l1 := [infoLog (cs "Validating worktree")]
    if !env.validOk then
      ⟨1, 0, l1 ++ [errLog (cs "Worktree validation failed: " ++ env.validErr)],
       [], some st⟩
    else
      let l2 := l1 ++ [infoLog (cs "Using worktree: " ++ optStr st.worktreePath)]
      match env.specFile with
      | none => ⟨1, 0, l2 ++ [errLog (cs "No spec file found")], [], some st⟩
      | some spec =>
        let l3 := l2 ++ [infoLog (cs "Using spec file: " ++ spec),
                         infoLog (cs "Implementing plan")]
        if !env.implementResp.success then
          ⟨1, 1, l3 ++ [errLog (cs "Implementation failed: " ++ env.implementResp.output)],
           [], some st⟩
        else
          ⟨0, 1, l3 ++ [infoLog (cs "Implementation completed successfully")],
           [cs "adw_build_iso"], some st⟩

/-! ### Document phase (adw_document_iso.py) -/

/-- Oracle inputs for one document-phase invocation; `reviewImgExists`
is the filesystem probe for the review screenshots directory. -/
structure DocumentEnv where
  stateLoaded : Option ADWSt
  validOk : Bool
  validErr : Str
  specFile : Option Str
  reviewImgExists : Bool
  reviewImgDir : Str
  docResp : AgentResponse

/-- Result of a document-phase invocation, recording the agent request
actually issued. -/
structure DocumentOut where
  exitCode : Nat
  requests : List ReqRec
  logs : List LogEntry
  savedPhases : List Str
  finalState : Option ADWSt
  docFile : Option Str

/-- `main` of adw_document_iso.py: load state, validate the worktree,
find the spec file (falling back to "" with a warning when absent),
probe for review screenshots, run the documentation agent, save state. -/
def documentMain (adwId : Str) (env : DocumentEnv) : DocumentOut :=
  match env.stateLoaded with
  | none =>
    ⟨1, [], [errLog (cs "No state found for ADW ID: " ++ adwId)], [], none, none⟩
  | some st =>
    let l1 := [infoLog (cs "Validating worktree")]
    if !env.validOk then
      ⟨1, [], l1 ++ [errLog (cs "Worktree validation failed: " ++ env.validErr)],
       [], some st, none⟩
    else
      let l2 := l1 ++ [infoLog (cs "Using worktree: " ++ optStr st.worktreePath)]
      let sp : Str × List LogEntry :=
        match env.specFile with
        | none => (cs "",
            [warnLog (cs "No spec file found, documenting without spec reference")])
        | some s => (s, [])
      let l3 := l2 ++ sp.2
      let img : Str × List LogEntry :=
        if env.reviewImgExists then
          (env.reviewImgDir,
           [infoLog (cs "Found review screenshots at: " ++ env.reviewImgDir)])
        else (cs "", [infoLog (cs "No review screenshots found")])
      let l4 := l3 ++ img.2 ++ [infoLog (cs "Generating documentation")]
      let req : ReqRec :=
        ⟨cs "documentation_writer", cs "/document",
         [adwId, sp.1, img.1], st.worktreePath⟩
      if !env.docResp.success then
        ⟨1, [req],
         l4 ++ [errLog (cs "Documentation generation failed: " ++ env.docResp.output)],
         [], some st, none⟩
      else
        let docFile := strip env.docResp.output
        ⟨0, [req], l4 ++ [infoLog (cs "Documentation created: " ++ docFile)],
         [cs "adw_document_iso"], some st, some docFile⟩

/-! ### Plan phase (adw_plan_iso.py) -/

/-- The matcher for Python's `re.search(r'specs/[\w-]+\.md', text)`:
character class of `[\w-]`. -/
def isWordDash (c : Char) : Bool :=
  c.isAlpha || c.isDigit || c == '_' || c == '-'

/-- Backtracking helper: try body lengths `k, k-1, ..., 1` for the
`[\w-]+` group followed by the literal ".md". -/
def tryLens (rest : Str) : Nat → Option Str
  | 0 => none
  | k + 1 =>
    if isPre (cs ".md") (rest.drop (k + 1)) then
      some (rest.take (k + 1) ++ cs ".md")
    else tryLens rest k

/-- Try to match `specs/[\w-]+\.md` at the front of `l`, returning the
matched text. -/
def matchAt (l : Str) : Option Str :=
  if isPre (cs "specs/") l then
    let rest := l.drop 6
    let run := rest.takeWhile isWordDash
    (tryLens rest run.length).map (fun m => cs "specs/" ++ m)
  else none

/-- `re.search(r'specs/[\w-]+\.md', text)`: leftmost match, longest
`[\w-]+` body first at each position. -/
def regexSearch : Str → Option Str
  | [] => none
  | c :: t =>
    match matchAt (c :: t) with
    | some m => some m
    | none => regexSearch t

/-- A fetched issue, used only through its title by the planning script. -/
structure Issue where
  title : Str

/-- Oracle inputs for one plan-phase invocation: the ensured run id, the
loaded state, issue fetch/classify/branch/worktree results, the allocated
ports, and the install and plan agent responses. -/
structure PlanEnv where
  ensuredId : Str
  stateLoaded : Option ADWSt
  isBeads : Bool
  fetchRes : Except Str Issue
  beadsOk : Bool
  beadsErr : Str
  classifyRes : Except Str Str
  branchRes : Except Str Str
  worktreeRes : Except Str Str
  ports : Nat × Nat
  installResp : AgentResponse
  planResp : AgentResponse

/-- Result of a plan-phase invocation. -/
structure PlanOut where
  exitCode : Nat
  logs : List LogEntry
  savedPhases : List Str
  finalState : Option ADWSt
  planFile : Option Str

/-- `main` of adw_plan_iso.py: ensure a run id, load or create state,
fetch the issue, classify and name a branch when none is recorded, create
the worktree, allocate ports, record them in state, install the worktree
environment, build the plan, then extract the plan file path — a
`specs/*.md` match in the response, else the stripped raw response. -/
def planMain (issueNumber : Str) (env : PlanEnv) : PlanOut :=
  let adwId := env.ensuredId
  let st0 : ADWSt :=
    match env.stateLoaded with
    | some s => s
    | none => ⟨some adwId, some issueNumber, none, none, none, none, none, none⟩
  let l1 := [infoLog (cs "Using ADW ID: " ++ adwId)]
  match env.fetchRes with
  | Except.error e =>
    ⟨1, l1 ++ [errLog (cs "Failed to fetch issue: " ++ e)], [], some st0, none⟩
  | Except.ok issue =>
    let l2 := l1 ++ [infoLog (cs "Fetched issue: " ++ issue.title)]
    let l3 := l2 ++
      (if env.isBeads && !env.beadsOk then
        [warnLog (cs "Failed to update beads status: " ++ env.beadsErr)]
       else [])
    let branchSt : Except (List LogEntry × ADWSt) (Str × ADWSt × List LogEntry) :=
      match st0.branchName with
      | some b => Except.ok (b, st0, l3)
      | none =>
        match env.classifyRes with
        | Except.error e =>
          Except.error (l3 ++ [errLog (cs "Failed to classify issue: " ++ e)], st0)
        | Except.ok cmd =>
          let st1 := setIssueClass st0 cmd
          match env.branchRes with
          | Except.error e =>
            Except.error (l3 ++ [errLog (cs "Failed to generate branch name: " ++ e)], st1)
          | Except.ok b => Except.ok (b, st1, l3)
    match branchSt with
    | Except.error le => ⟨1, le.1, [], some le.2, none⟩
    | Except.ok bsl =>
      let b := bsl.1
      let st1 := bsl.2.1
      let l4 := bsl.2.2 ++ [infoLog (cs "Using branch: " ++ b),
                            infoLog (cs "Creating isolated worktree")]
      match env.worktreeRes with
      | Except.error e =>
        ⟨1, l4 ++ [errLog (cs "Failed to create worktree: " ++ e)], [], some st1, none⟩
      | Except.ok wt =>
        let bp := env.ports.1
        let fp := env.ports.2
        let st2 := setWorktreeFields st1 wt b bp fp
        let l5 := l4 ++ [infoLog (cs "Created worktree at: " ++ wt),
                         infoLog (cs "Installing worktree environment")]
        if !env.installResp.success then
          ⟨1, l5 ++ [errLog (cs "Failed to install worktree: " ++ env.installResp.output)],
           [cs "adw_plan_iso"], some st2, none⟩
        else
          let issueCmd : Str :=
            match st2.issueClass with
            | some c => if c.isEmpty then cs "/chore" else c
            | none => cs "/chore"
          let l6 := l5 ++ [infoLog (cs "Worktree environment installed"),
                           infoLog (cs "Building plan using command: " ++ issueCmd)]
          if !env.planResp.success then
            ⟨1, l6 ++ [errLog (cs "Failed to build plan: " ++ env.planResp.output)],
             [cs "adw_plan_iso"], some st2, none⟩
          else
            let planFile : Str :=
              match regexSearch env.planResp.output with
              | some m => m
              | none => strip env.planResp.output
            let st3 := setPlanFile st2 planFile
            ⟨0, l6 ++ [infoLog (cs "Plan created: " ++ planFile)],
             [cs "adw_plan_iso", cs "adw_plan_iso"], some st3, some planFile⟩

/-! ### Support definitions for the claim statements -/

/-- Look up a field of a review issue (a parsed JSON object). -/
def issueField (i : JVal) (k : Str) : Option JVal :=
  jGet ((asObj i).getD []) k

/-- The `create_and_implement_patch` call the resolution loop makes for a
well-formed blocking issue. -/
def toPatch (spec : Str) (wt : Option Str) (i : JVal) : PatchCall :=
  ⟨(issueField i resKey).getD JVal.jnull, spec, issueField i ssKey, wt⟩

/-- The info line logged when the loop starts resolving an issue. -/
def resolvingMsg (i : JVal) : LogEntry :=
  infoLog (cs "Resolving issue " ++ jshow ((issueField i numKey).getD JVal.jnull) ++
           cs ": " ++ jshow ((issueField i descKey).getD JVal.jnull))

/-- The info line logged when the loop has resolved an issue. -/
def resolvedMsg (i : JVal) : LogEntry :=
  infoLog (cs "Resolved issue " ++ jshow ((issueField i numKey).getD JVal.jnull))

/-- The error line logged for an issue when resolution is skipped. -/
def skippedMsg (i : JVal) : LogEntry :=
  errLog (cs "  - " ++ jshow ((issueField i descKey).getD JVal.jnull))

/-- Log lines produced by a run of the resolution loop in which every
patch succeeds. -/
def okLogs : List JVal → List LogEntry
  | [] => []
  | i :: r => resolvingMsg i :: resolvedMsg i :: okLogs r

/-- A review issue is well formed when it is an object carrying the three
fields the resolution loop reads unconditionally. -/
def wfIssue (i : JVal) : Prop :=
  (asObj i).isSome = true ∧ (issueField i numKey).isSome = true ∧
  (issueField i descKey).isSome = true ∧ (issueField i resKey).isSome = true

/-- The review-agent request the review phase issues. -/
def reviewReq (adwId spec : Str) (wt : Option Str) : ReqRec :=
  ⟨cs "review_agent", cs "/review", [adwId, spec, cs "review_agent"], wt⟩

/-- The characters of the tag "json". -/
def jsonTag : Str := ['j', 's', 'o', 'n']

/-- A shared concrete run state for witnesses. -/
def stA : ADWSt :=
  ⟨some (cs "adw-1"), some (cs "42"), some (cs "trees/adw-1"), some (cs "feat-42"),
   some 9100, some 9101, some (cs "specs/plan-42.md"), some (cs "/feature")⟩

/-- A concrete review payload with a single blocker finding. -/
def outOneBlocker : Str :=
  cs "\x7b\"review_summary\": \"problems found\", \"success\": false, \"review_issues\": [\x7b\"review_issue_number\": 1, \"issue_severity\": \"blocker\", \"issue_description\": \"crash on save\", \"issue_resolution\": \"fix the handler\"\x7d]\x7d"

/-- A concrete review payload with two blocker findings. -/
def outTwoBlockers : Str :=
  cs "\x7b\"review_summary\": \"problems found\", \"success\": false, \"review_issues\": [\x7b\"review_issue_number\": 1, \"issue_severity\": \"blocker\", \"issue_description\": \"crash on save\", \"issue_resolution\": \"fix the handler\"\x7d, \x7b\"review_issue_number\": 2, \"issue_severity\": \"blocker\", \"issue_description\": \"wrong label\", \"issue_resolution\": \"rename the button\"\x7d]\x7d"

/-- A concrete review payload that is a JSON object but whose text
contains a triple-backtick fence inside a string. -/
def cexPayload : Str := cs "\x7b\"a\": \"x```y\"\x7d"

/-- An always-successful patch oracle. -/
def patchAllOk : Nat → AgentResponse := fun _ => ⟨true, cs "patch applied"⟩

/-- A patch oracle that always fails with output "boom". -/
def patchAllFail : Nat → AgentResponse := fun _ => ⟨false, cs "boom"⟩

/-- The parsed form of the single blocker finding in `outOneBlocker`. -/
def oneBlockerIssue : JVal :=
  JVal.jobj [(numKey, JVal.jnum (cs "1")), (sevKey, JVal.jstr (cs "blocker")),
             (descKey, JVal.jstr (cs "crash on save")),
             (resKey, JVal.jstr (cs "fix the handler"))]

/-- The parsed form of `outOneBlocker`. -/
def oneBlockerKvs : List (Str × JVal) :=
  [(summaryKey, JVal.jstr (cs "problems found")), (cs "success", JVal.jbool false),
   (issuesKey, JVal.jarr [oneBlockerIssue])]

/-- The parsed form of the second blocker finding in `outTwoBlockers`. -/
def secondBlockerIssue : JVal :=
  JVal.jobj [(numKey, JVal.jnum (cs "2")), (sevKey, JVal.jstr (cs "blocker")),
             (descKey, JVal.jstr (cs "wrong label")),
             (resKey, JVal.jstr (cs "rename the button"))]

/-- The parsed form of `outTwoBlockers`. -/
def twoBlockerKvs : List (Str × JVal) :=
  [(summaryKey, JVal.jstr (cs "problems found")), (cs "success", JVal.jbool false),
   (issuesKey, JVal.jarr [oneBlockerIssue, secondBlockerIssue])]

/-- A concrete fence-free review payload for the extractor witness. -/
def pWitness : Str := cs "\x7b\"success\": true\x7d"

/-- A concrete language tag for the extractor witness. -/
def langWitness : Str := cs "text"

/-- A concrete review environment whose single blocker's patch fails. -/
def envC8 : ReviewEnv :=
  ⟨some stA, true, [], some (cs "specs/plan-42.md"), ⟨true, outOneBlocker⟩, patchAllFail⟩

/-! ### Claim theorems -/

/-- C2: the test phase, invoked with state present and a valid worktree,
on a test run reporting failures, still saves state — but then exits with
status 1 (adw_test_iso.py line 102), not 0 as the spec states and as the
script's own comment (lines 87-88) intends. -/
theorem C2_test_failure_saves_state_but_exits_one :
    (testMain (cs "adw-1") ⟨some stA, true, [], ⟨false, cs "2 tests failed"⟩⟩).savedPhases
        = [cs "adw_test_iso"] ∧
    (testMain (cs "adw-1") ⟨some stA, true, [], ⟨false, cs "2 tests failed"⟩⟩).finalState
        = some stA ∧
    (testMain (cs "adw-1") ⟨some stA, true, [], ⟨false, cs "2 tests failed"⟩⟩).exitCode = 1 :=
  ⟨rfl, rfl, rfl⟩

/-- C5: with no persisted state, the build, test, review and document
phases exit with status 1 having made no agent call, while the planning
phase builds a fresh state carrying the run identifier and issue number
and (its other collaborators succeeding) completes with exit code 0. -/
theorem C5_missing_state_fatal_except_planning
    (adwId issueNumber verr : Str) (voB voT voR voD : Bool)
    (sfB : Option Str) (irB trT rrR : AgentResponse)
    (sfR : Option Str) (prR : Nat → AgentResponse) (sk : Bool)
    (sfD : Option Str) (ie : Bool) (idir : Str) (dr : AgentResponse)
    (aid : Str) (ib : Bool) (iss : Issue) (bo : Bool) (be : Str)
    (cmd br wt : Str) (bp fp : Nat) (io po : Str) :
    (buildMain adwId ⟨none, voB, verr, sfB, irB⟩).exitCode = 1 ∧
    (buildMain adwId ⟨none, voB, verr, sfB, irB⟩).agentCalls = 0 ∧
    (testMain adwId ⟨none, voT, verr, trT⟩).exitCode = 1 ∧
    (testMain adwId ⟨none, voT, verr, trT⟩).agentCalls = 0 ∧
    (reviewMain adwId sk ⟨none, voR, verr, sfR, rrR, prR⟩).exitCode = 1 ∧
    (reviewMain adwId sk ⟨none, voR, verr, sfR, rrR, prR⟩).reviewRequests = [] ∧
    (reviewMain adwId sk ⟨none, voR, verr, sfR, rrR, prR⟩).patchCalls = [] ∧
    (documentMain adwId ⟨none, voD, verr, sfD, ie, idir, dr⟩).exitCode = 1 ∧
    (documentMain adwId ⟨none, voD, verr, sfD, ie, idir, dr⟩).requests = [] ∧
    (planMain issueNumber ⟨aid, none, ib, Except.ok iss, bo, be, Except.ok cmd,
        Except.ok br, Except.ok wt, (bp, fp), ⟨true, io⟩, ⟨true, po⟩⟩).exitCode = 0 ∧
    (planMain issueNumber ⟨aid, none, ib, Except.ok iss, bo, be, Except.ok cmd,
        Except.ok br, Except.ok wt, (bp, fp), ⟨true, io⟩, ⟨true, po⟩⟩).finalState.map
        ADWSt.adwId = some (some aid) ∧
    (planMain issueNumber ⟨aid, none, ib, Except.ok iss, bo, be, Except.ok cmd,
        Except.ok br, Except.ok wt, (bp, fp), ⟨true, io⟩, ⟨true, po⟩⟩).finalState.map
        ADWSt.issueNumber = some (some issueNumber) :=
  ⟨rfl, rfl, rfl, rfl, rfl, rfl, rfl, rfl, rfl, rfl, rfl, rfl⟩

/-- C5 witness at concrete inputs. -/
theorem C5_missing_state_fatal_except_planning_witness :
    (buildMain (cs "adw-1") ⟨none, true, [], none, ⟨true, []⟩⟩).exitCode = 1 ∧
    (planMain (cs "42") ⟨cs "adw-1", none, false, Except.ok ⟨cs "Add feature"⟩, true, [],
        Except.ok (cs "/feature"), Except.ok (cs "feat-42"), Except.ok (cs "trees/adw-1"),
        (9100, 9101), ⟨true, cs "ok"⟩, ⟨true, cs "specs/plan-42.md"⟩⟩).finalState.map
        ADWSt.adwId = some (some (cs "adw-1")) :=
  ⟨(C5_missing_state_fatal_except_planning (cs "adw-1") (cs "42") [] true true true true
      none ⟨true, []⟩ ⟨true, []⟩ ⟨true, []⟩ none (fun _ => ⟨true, []⟩) false none false []
      ⟨true, []⟩ (cs "adw-1") false ⟨cs "Add feature"⟩ true [] (cs "/feature")
      (cs "feat-42") (cs "trees/adw-1") 9100 9101 (cs "ok") (cs "specs/plan-42.md")).1,
   (C5_missing_state_fatal_except_planning (cs "adw-1") (cs "42") [] true true true true
      none ⟨true, []⟩ ⟨true, []⟩ ⟨true, []⟩ none (fun _ => ⟨true, []⟩) false none false []
      ⟨true, []⟩ (cs "adw-1") false ⟨cs "Add feature"⟩ true [] (cs "/feature")
      (cs "feat-42") (cs "trees/adw-1") 9100 9101 (cs "ok") (cs "specs/plan-42.md")).2.2.2.2.2.2.2.2.2.2.1⟩

/-- C6: when the recorded worktree fails validation, the build, test and
review phases exit with status 1 carrying the validation error, and make
no agent call; conversely, in these phases an agent call (or a patch
call) implies the worktree validation succeeded. -/
theorem C6_validation_precedes_agent
    (adwId verr : Str) (st : ADWSt)
    (sfB : Option Str) (irB trT rrR : AgentResponse)
    (sfR : Option Str) (prR : Nat → AgentResponse) (sk : Bool)
    (envB : BuildEnv) (envT : TestEnv) (envR : ReviewEnv) :
    ((buildMain adwId ⟨some st, false, verr, sfB, irB⟩).exitCode = 1 ∧
     (buildMain adwId ⟨some st, false, verr, sfB, irB⟩).agentCalls = 0 ∧
     errLog (cs "Worktree validation failed: " ++ verr) ∈
       (buildMain adwId ⟨some st, false, verr, sfB, irB⟩).logs) ∧
    ((testMain adwId ⟨some st, false, verr, trT⟩).exitCode = 1 ∧
     (testMain adwId ⟨some st, false, verr, trT⟩).agentCalls = 0 ∧
     errLog (cs "Worktree validation failed: " ++ verr) ∈
       (testMain adwId ⟨some st, false, verr, trT⟩).logs) ∧
    ((reviewMain adwId sk ⟨some st, false, verr, sfR, rrR, prR⟩).exitCode = 1 ∧
     (reviewMain adwId sk ⟨some st, false, verr, sfR, rrR, prR⟩).reviewRequests = [] ∧
     (reviewMain adwId sk ⟨some st, false, verr, sfR, rrR, prR⟩).patchCalls = [] ∧
     errLog (cs "Worktree validation failed: " ++ verr) ∈
       (reviewMain adwId sk ⟨some st, false, verr, sfR, rrR, prR⟩).logs) ∧
    ((buildMain adwId envB).agentCalls ≠ 0 → envB.validOk = true) ∧
    ((testMain adwId envT).agentCalls ≠ 0 → envT.validOk = true) ∧
    ((reviewMain adwId sk envR).reviewRequests ≠ [] → envR.validOk = true) ∧
    ((reviewMain adwId sk envR).patchCalls ≠ [] → envR.validOk = true) := by
  refine ⟨⟨rfl, rfl, ?_⟩, ⟨rfl, rfl, ?_⟩, ⟨rfl, rfl, rfl, ?_⟩, ?_, ?_, ?_, ?_⟩
  · exact List.Mem.tail _ (List.Mem.head _)
  · exact List.Mem.tail _ (List.Mem.head _)
  · exact List.Mem.tail _ (List.Mem.head _)
  · intro h
    rcases envB with ⟨sl, vo, ve, sf, ir⟩
    cases vo
    · cases sl
      · exact absurd rfl h
      · exact absurd rfl h
    · rfl
  · intro h
    rcases envT with ⟨sl, vo, ve, tr⟩
    cases vo
    · cases sl
      · exact absurd rfl h
      · exact absurd rfl h
    · rfl
  · intro h
    rcases envR with ⟨sl, vo, ve, sf, rr, pr⟩
    cases vo
    · cases sl
      · exact absurd rfl h
      · exact absurd rfl h
    · rfl
  · intro h
    rcases envR with ⟨sl, vo, ve, sf, rr, pr⟩
    cases vo
    · cases sl
      · exact absurd rfl h
      · exact absurd rfl h
    · rfl

/-- C6 witness at concrete inputs. -/
theorem C6_validation_precedes_agent_witness :
    (buildMain (cs "adw-1") ⟨some stA, false, cs "worktree missing", none, ⟨true, []⟩⟩).exitCode = 1 ∧
    (reviewMain (cs "adw-1") false ⟨some stA, false, cs "worktree missing", none,
        ⟨true, []⟩, patchAllOk⟩).patchCalls = [] :=
  ⟨(C6_validation_precedes_agent (cs "adw-1") (cs "worktree missing") stA none ⟨true, []⟩
      ⟨true, []⟩ ⟨true, []⟩ none patchAllOk false
      ⟨none, true, [], none, ⟨true, []⟩⟩ ⟨none, true, [], ⟨true, []⟩⟩
      ⟨none, true, [], none, ⟨true, []⟩, patchAllOk⟩).1.1,
   (C6_validation_precedes_agent (cs "adw-1") (cs "worktree missing") stA none ⟨true, []⟩
      ⟨true, []⟩ ⟨true, []⟩ none patchAllOk false
      ⟨none, true, [], none, ⟨true, []⟩⟩ ⟨none, true, [], ⟨true, []⟩⟩
      ⟨none, true, [], none, ⟨true, []⟩, patchAllOk⟩).2.2.1.2.2.1⟩

/-- Helper: the build phase never replaces the loaded state object. -/
theorem buildMain_finalState (adwId verr : Str) (st : ADWSt) (vo : Bool)
    (sf : Option Str) (ir : AgentResponse) :
    (buildMain adwId ⟨some st, vo, verr, sf, ir⟩).finalState = some st := by
  unfold buildMain
  repeat' split
  all_goals simp_all

/-- Helper: the test phase never replaces the loaded state object. -/
theorem testMain_finalState (adwId verr : Str) (st : ADWSt) (vo : Bool)
    (tr : AgentResponse) :
    (testMain adwId ⟨some st, vo, verr, tr⟩).finalState = some st := by
  unfold testMain
  repeat' split
  all_goals simp_all

/-- Helper: the review phase never replaces the loaded state object. -/
theorem reviewMain_finalState (adwId verr : Str) (sk : Bool) (st : ADWSt) (vo : Bool)
    (sf : Option Str) (rr : AgentResponse) (pr : Nat → AgentResponse) :
    (reviewMain adwId sk ⟨some st, vo, verr, sf, rr, pr⟩).finalState = some st := by
  unfold reviewMain
  repeat' split
  all_goals simp_all
  all_goals repeat' split
  all_goals rfl

/-- Helper: the document phase never replaces the loaded state object. -/
theorem documentMain_finalState (adwId verr idir : Str) (st : ADWSt) (vo ie : Bool)
    (sf : Option Str) (dr : AgentResponse) :
    (documentMain adwId ⟨some st, vo, verr, sf, ie, idir, dr⟩).finalState = some st := by
  unfold documentMain
  repeat' split
  all_goals simp_all

/-- C7: build, test, review and document leave the loaded state object
untouched — in particular `worktree_path`, `branch_name`, `backend_port`
and `frontend_port` are field-for-field unchanged — while the planning
phase is the one that sets those four fields (to the worktree path,
branch name and allocated ports). -/
theorem C7_phase_frame
    (adwId verr idir : Str) (st : ADWSt) (voB voT voR voD ie sk : Bool)
    (sfB sfR sfD : Option Str) (irB trT rrR dr : AgentResponse)
    (prR : Nat → AgentResponse)
    (aid issueNumber : Str) (ib : Bool) (iss : Issue) (bo : Bool) (be : Str)
    (cmd br wt : Str) (bp fp : Nat) (io po : Str) :
    ((buildMain adwId ⟨some st, voB, verr, sfB, irB⟩).finalState = some st ∧
     (buildMain adwId ⟨some st, voB, verr, sfB, irB⟩).finalState.map ADWSt.worktreePath
        = some st.worktreePath ∧
     (buildMain adwId ⟨some st, voB, verr, sfB, irB⟩).finalState.map ADWSt.branchName
        = some st.branchName ∧
     (buildMain adwId ⟨some st, voB, verr, sfB, irB⟩).finalState.map ADWSt.backendPort
        = some st.backendPort ∧
     (buildMain adwId ⟨some st, voB, verr, sfB, irB⟩).finalState.map ADWSt.frontendPort
        = some st.frontendPort) ∧
    (testMain adwId ⟨some st, voT, verr, trT⟩).finalState = some st ∧
    (reviewMain adwId sk ⟨some st, voR, verr, sfR, rrR, prR⟩).finalState = some st ∧
    (documentMain adwId ⟨some st, voD, verr, sfD, ie, idir, dr⟩).finalState = some st ∧
    ((planMain issueNumber ⟨aid, none, ib, Except.ok iss, bo, be, Except.ok cmd,
        Except.ok br, Except.ok wt, (bp, fp), ⟨true, io⟩, ⟨true, po⟩⟩).finalState.map
        ADWSt.worktreePath = some (some wt) ∧
     (planMain issueNumber ⟨aid, none, ib, Except.ok iss, bo, be, Except.ok cmd,
        Except.ok br, Except.ok wt, (bp, fp), ⟨true, io⟩, ⟨true, po⟩⟩).finalState.map
        ADWSt.branchName = some (some br) ∧
     (planMain issueNumber ⟨aid, none, ib, Except.ok iss, bo, be, Except.ok cmd,
        Except.ok br, Except.ok wt, (bp, fp), ⟨true, io⟩, ⟨true, po⟩⟩).finalState.map
        ADWSt.backendPort = some (some bp) ∧
     (planMain issueNumber ⟨aid, none, ib, Except.ok iss, bo, be, Except.ok cmd,
        Except.ok br, Except.ok wt, (bp, fp), ⟨true, io⟩, ⟨true, po⟩⟩).finalState.map
        ADWSt.frontendPort = some (some fp)) := by
  have hb := buildMain_finalState adwId verr st voB sfB irB
  refine ⟨⟨hb, ?_, ?_, ?_, ?_⟩,
    testMain_finalState adwId verr st voT trT,
    reviewMain_finalState adwId verr sk st voR sfR rrR prR,
    documentMain_finalState adwId verr idir st voD ie sfD dr,
    rfl, rfl, rfl, rfl⟩
  all_goals rw [hb]
  all_goals rfl

/-- C7 witness at concrete inputs. -/
theorem C7_phase_frame_witness :
    (buildMain (cs "adw-1") ⟨some stA, true, [], some (cs "specs/plan-42.md"),
        ⟨true, cs "done"⟩⟩).finalState = some stA :=
  (C7_phase_frame (cs "adw-1") [] [] stA true true true true false false
    (some (cs "specs/plan-42.md")) none none ⟨true, cs "done"⟩ ⟨true, []⟩ ⟨true, []⟩
    ⟨true, []⟩ patchAllOk (cs "adw-1") (cs "42") false ⟨cs "Add feature"⟩ true []
    (cs "/feature") (cs "feat-42") (cs "trees/adw-1") 9100 9101 (cs "ok")
    (cs "specs/plan-42.md")).1.1

/-- C10: when no spec file is found, the document phase logs a warning,
passes an empty spec reference in the agent request, and exits 0 when the
documentation agent succeeds — whereas the build and review phases exit 1
when no spec file is found. -/
theorem C10_document_tolerates_missing_spec
    (adwId verr idir dout : Str) (st : ADWSt) (ie sk : Bool)
    (irB rrR : AgentResponse) (prR : Nat → AgentResponse) :
    (documentMain adwId ⟨some st, true, verr, none, ie, idir, ⟨true, dout⟩⟩).exitCode = 0 ∧
    warnLog (cs "No spec file found, documenting without spec reference") ∈
      (documentMain adwId ⟨some st, true, verr, none, ie, idir, ⟨true, dout⟩⟩).logs ∧
    (documentMain adwId ⟨some st, true, verr, none, ie, idir, ⟨true, dout⟩⟩).requests
      = [⟨cs "documentation_writer", cs "/document",
          [adwId, cs "", if ie then idir else cs ""], st.worktreePath⟩] ∧
    (documentMain adwId ⟨some st, true, verr, none, ie, idir, ⟨true, dout⟩⟩).savedPhases
      = [cs "adw_document_iso"] ∧
    (buildMain adwId ⟨some st, true, verr, none, irB⟩).exitCode = 1 ∧
    (reviewMain adwId sk ⟨some st, true, verr, none, rrR, prR⟩).exitCode = 1 := by
  cases ie
  · exact ⟨rfl, List.Mem.tail _ (List.Mem.tail _ (List.Mem.head _)), rfl, rfl, rfl, rfl⟩
  · exact ⟨rfl, List.Mem.tail _ (List.Mem.tail _ (List.Mem.head _)), rfl, rfl, rfl, rfl⟩

/-- C10 witness at concrete inputs. -/
theorem C10_document_tolerates_missing_spec_witness :
    (documentMain (cs "adw-1") ⟨some stA, true, [], none, false, [],
        ⟨true, cs "docs/feature.md"⟩⟩).exitCode = 0 :=
  (C10_document_tolerates_missing_spec (cs "adw-1") [] [] (cs "docs/feature.md") stA
    false false ⟨true, []⟩ ⟨true, []⟩ patchAllOk).1

/-- C4 (amended): the review phase exits 1 (without saving state) when
the agent output contains no parseable JSON; the plan phase, however,
does not fail when no `specs/*.md` path appears in the plan response —
it falls back to recording the stripped raw response text as the plan
file and exits 0 (adw_plan_iso.py lines 167-169). -/
theorem C4_parse_failure_handling
    (adwId verr spec out : Str) (st : ADWSt) (sk : Bool) (pr : Nat → AgentResponse)
    (issueNumber aid : Str) (ib : Bool) (iss : Issue) (bo : Bool) (be : Str)
    (cmd br wt : Str) (bp fp : Nat) (io po : Str)
    (hparse : jsonParse (extractPayload out) = none)
    (hre : regexSearch po = none) :
    (reviewMain adwId sk ⟨some st, true, verr, some spec, ⟨true, out⟩, pr⟩).exitCode = 1 ∧
    errLog (cs "Failed to parse review results") ∈
      (reviewMain adwId sk ⟨some st, true, verr, some spec, ⟨true, out⟩, pr⟩).logs ∧
    (reviewMain adwId sk ⟨some st, true, verr, some spec, ⟨true, out⟩, pr⟩).savedPhases
      = [] ∧
    (planMain issueNumber ⟨aid, none, ib, Except.ok iss, bo, be, Except.ok cmd,
        Except.ok br, Except.ok wt, (bp, fp), ⟨true, io⟩, ⟨true, po⟩⟩).exitCode = 0 ∧
    (planMain issueNumber ⟨aid, none, ib, Except.ok iss, bo, be, Except.ok cmd,
        Except.ok br, Except.ok wt, (bp, fp), ⟨true, io⟩, ⟨true, po⟩⟩).planFile
      = some (strip po) := by
  refine ⟨?_, ?_, ?_, rfl, ?_⟩
  · simp [reviewMain, hparse]
  · simp [reviewMain, hparse]
  · simp [reviewMain, hparse]
  · simp [planMain, hre]

/-- C4 witness at concrete inputs. -/
theorem C4_parse_failure_handling_witness :
    jsonParse (extractPayload (cs "no json here")) = none ∧
    regexSearch (cs "All done.") = none ∧
    (reviewMain (cs "adw-1") false ⟨some stA, true, [], some (cs "specs/plan-42.md"),
        ⟨true, cs "no json here"⟩, patchAllOk⟩).exitCode = 1 ∧
    (planMain (cs "42") ⟨cs "adw-1", none, false, Except.ok ⟨cs "Add feature"⟩, true, [],
        Except.ok (cs "/feature"), Except.ok (cs "feat-42"), Except.ok (cs "trees/adw-1"),
        (9100, 9101), ⟨true, cs "ok"⟩, ⟨true, cs "All done."⟩⟩).planFile
      = some (strip (cs "All done.")) :=
  ⟨rfl, by decide,
   (C4_parse_failure_handling (cs "adw-1") [] (cs "specs/plan-42.md") (cs "no json here")
      stA false patchAllOk (cs "42") (cs "adw-1") false ⟨cs "Add feature"⟩ true []
      (cs "/feature") (cs "feat-42") (cs "trees/adw-1") 9100 9101 (cs "ok")
      (cs "All done.") rfl (by decide)).1,
   (C4_parse_failure_handling (cs "adw-1") [] (cs "specs/plan-42.md") (cs "no json here")
      stA false patchAllOk (cs "42") (cs "adw-1") false ⟨cs "Add feature"⟩ true []
      (cs "/feature") (cs "feat-42") (cs "trees/adw-1") 9100 9101 (cs "ok")
      (cs "All done.") rfl (by decide)).2.2.2.2⟩

/-- C4 counterexample: with every collaborator succeeding and a plan
response containing no `specs/*.md` path, the plan phase does not exit
non-zero — it exits 0 and records the raw response text as the plan
file, contrary to the claim. -/
theorem C4_counterexample :
    (planMain (cs "42") ⟨cs "adw-1", none, false, Except.ok ⟨cs "Add feature"⟩, true, [],
        Except.ok (cs "/feature"), Except.ok (cs "feat-42"), Except.ok (cs "trees/adw-1"),
        (9100, 9101), ⟨true, cs "ok"⟩, ⟨true, cs "All done."⟩⟩).exitCode = 0 ∧
    (planMain (cs "42") ⟨cs "adw-1", none, false, Except.ok ⟨cs "Add feature"⟩, true, [],
        Except.ok (cs "/feature"), Except.ok (cs "feat-42"), Except.ok (cs "trees/adw-1"),
        (9100, 9101), ⟨true, cs "ok"⟩, ⟨true, cs "All done."⟩⟩).planFile
      = some (cs "All done.") := by
  exact ⟨rfl, by decide⟩

/-- Helper: the skip-resolution reporting loop logs one description line
per blocking issue, in order, when every issue carries a description. -/
theorem skipLoop_eq (bs : List JVal)
    (h : ∀ i ∈ bs, (asObj i).isSome = true ∧ (issueField i descKey).isSome = true) :
    skipLoop bs = (bs.map skippedMsg, false) := by
  induction bs with
  | nil => rfl
  | cons i r ih =>
    have hi := h i (List.mem_cons_self i r)
    obtain ⟨kvs, hk⟩ := Option.isSome_iff_exists.mp hi.1
    have hif : issueField i descKey = jGet kvs descKey := by
      simp [issueField, hk]
    have h2 := hi.2
    rw [hif] at h2
    obtain ⟨d, hd⟩ := Option.isSome_iff_exists.mp h2
    have ht := ih (fun j hj => h j (List.mem_cons_of_mem _ hj))
    simp [skipLoop, hk, hd, ht, skippedMsg, hif]

/-- Helper: with every patch succeeding and every issue well formed, the
resolution loop makes exactly one patch call per issue, in order, and
terminates normally. -/
theorem resolveLoop_all_ok (spec : Str) (wt : Option Str) (pr : Nat → AgentResponse)
    (bs : List JVal) (k : Nat)
    (hpr : ∀ n, (pr n).success = true)
    (h : ∀ i ∈ bs, wfIssue i) :
    resolveLoop spec wt pr bs k =
      ⟨okLogs bs, bs.map (toPatch spec wt), none, false⟩ := by
  induction bs generalizing k with
  | nil => rfl
  | cons i r ih =>
    have hi := h i (List.mem_cons_self i r)
    obtain ⟨kvs, hk⟩ := Option.isSome_iff_exists.mp hi.1
    have hif : ∀ key : Str, issueField i key = jGet kvs key := fun key => by
      simp [issueField, hk]
    have hn := hi.2.1; rw [hif] at hn
    obtain ⟨num, hnum⟩ := Option.isSome_iff_exists.mp hn
    have hd := hi.2.2.1; rw [hif] at hd
    obtain ⟨desc, hdesc⟩ := Option.isSome_iff_exists.mp hd
    have hr := hi.2.2.2; rw [hif] at hr
    obtain ⟨res, hres⟩ := Option.isSome_iff_exists.mp hr
    have ht := ih (k + 1) (fun j hj => h j (List.mem_cons_of_mem _ hj))
    simp [resolveLoop, hk, hnum, hdesc, hres, hpr k, ht, okLogs, toPatch,
      resolvingMsg, resolvedMsg, hif]

/-- Helper: when the patches for a prefix of the blocking issues succeed
and the next patch fails, the loop logs the failing patch response's
output, has made exactly one patch call per attempted issue, and exits 1
without touching the remaining issues. -/
theorem resolveLoop_fail (spec : Str) (wt : Option Str) (pr : Nat → AgentResponse)
    (bs1 : List JVal) (bf : JVal) (bs2 : List JVal) (k : Nat)
    (h : ∀ i ∈ bs1, wfIssue i) (hf : wfIssue bf)
    (hok : ∀ n, n < bs1.length → (pr (k + n)).success = true)
    (hfail : (pr (k + bs1.length)).success = false) :
    resolveLoop spec wt pr (bs1 ++ bf :: bs2) k =
      ⟨okLogs bs1 ++ [resolvingMsg bf,
         errLog (cs "Failed to resolve issue: " ++ (pr (k + bs1.length)).output)],
       (bs1 ++ [bf]).map (toPatch spec wt), some 1, false⟩ := by
  induction bs1 generalizing k with
  | nil =>
    obtain ⟨kvs, hk⟩ := Option.isSome_iff_exists.mp hf.1
    have hif : ∀ key : Str, issueField bf key = jGet kvs key := fun key => by
      simp [issueField, hk]
    have hn := hf.2.1; rw [hif] at hn
    obtain ⟨num, hnum⟩ := Option.isSome_iff_exists.mp hn
    have hd := hf.2.2.1; rw [hif] at hd
    obtain ⟨desc, hdesc⟩ := Option.isSome_iff_exists.mp hd
    have hr := hf.2.2.2; rw [hif] at hr
    obtain ⟨res, hres⟩ := Option.isSome_iff_exists.mp hr
    have hfail' : (pr k).success = false := by simpa using hfail
    simp [resolveLoop, hk, hnum, hdesc, hres, hfail', okLogs, toPatch,
      resolvingMsg, hif]
  | cons i r ih =>
    have hi := h i (List.mem_cons_self i r)
    obtain ⟨kvs, hk⟩ := Option.isSome_iff_exists.mp hi.1
    have hif : ∀ key : Str, issueField i key = jGet kvs key := fun key => by
      simp [issueField, hk]
    have hn := hi.2.1; rw [hif] at hn
    obtain ⟨num, hnum⟩ := Option.isSome_iff_exists.mp hn
    have hd := hi.2.2.1; rw [hif] at hd
    obtain ⟨desc, hdesc⟩ := Option.isSome_iff_exists.mp hd
    have hr := hi.2.2.2; rw [hif] at hr
    obtain ⟨res, hres⟩ := Option.isSome_iff_exists.mp hr
    have hok0 : (pr k).success = true := by
      have := hok 0 (by simp)
      simpa using this
    have hok' : ∀ n, n < r.length → (pr (k + 1 + n)).success = true := by
      intro n hn'
      have := hok (n + 1) (by simpa using Nat.succ_lt_succ hn')
      have harith : k + (n + 1) = k + 1 + n := by omega
      rw [harith] at this
      exact this
    have hfail' : (pr (k + 1 + r.length)).success = false := by
      have harith : k + (i :: r).length = k + 1 + r.length := by
        simp [List.length_cons]
        omega
      rw [harith] at hfail
      exact hfail
    have ht := ih (k + 1) (fun j hj => h j (List.mem_cons_of_mem _ hj)) hok' hfail'
    rw [show k + 1 + r.length = k + (r.length + 1) from by omega] at ht
    simp [resolveLoop, hk, hnum, hdesc, hres, hok0, ht, okLogs, toPatch,
      resolvingMsg, resolvedMsg, hif, List.length_cons]

/-- C1: with `--skip-resolution` set and at least one blocker finding in
the parsed review outcome, the review phase exits 1 without saving state,
makes zero `create_and_implement_patch` calls, and logs the count of
blocking findings and each finding's description. -/
theorem C1_skip_resolution_aborts
    (adwId verr spec out : Str) (st : ADWSt) (pr : Nat → AgentResponse)
    (kvs : List (Str × JVal)) (xs : List JVal)
    (hparse : jsonParse (extractPayload out) = some (JVal.jobj kvs))
    (hiss : jGet kvs issuesKey = some (JVal.jarr xs))
    (hobj : xs.all (fun i => (asObj i).isSome) = true)
    (hne : xs.filter isBlocker ≠ [])
    (hdesc : ∀ i ∈ xs.filter isBlocker,
      (asObj i).isSome = true ∧ (issueField i descKey).isSome = true) :
    (reviewMain adwId true ⟨some st, true, verr, some spec, ⟨true, out⟩, pr⟩).exitCode
      = 1 ∧
    (reviewMain adwId true ⟨some st, true, verr, some spec, ⟨true, out⟩, pr⟩).patchCalls
      = [] ∧
    (reviewMain adwId true ⟨some st, true, verr, some spec, ⟨true, out⟩, pr⟩).savedPhases
      = [] ∧
    errLog (cs "Found " ++ natStr (xs.filter isBlocker).length ++
        cs " blocking issues (resolution skipped)") ∈
      (reviewMain adwId true ⟨some st, true, verr, some spec, ⟨true, out⟩, pr⟩).logs ∧
    ∀ i ∈ xs.filter isBlocker, skippedMsg i ∈
      (reviewMain adwId true ⟨some st, true, verr, some spec, ⟨true, out⟩, pr⟩).logs := by
  have hbe : (xs.filter isBlocker).isEmpty = false := by
    rcases hxe : xs.filter isBlocker with _ | ⟨a, as⟩
    · exact absurd hxe hne
    · rfl
  have hsk := skipLoop_eq (xs.filter isBlocker) hdesc
  have hao : asObj (JVal.jobj kvs) = some kvs := rfl
  refine ⟨?_, ?_, ?_, ?_, ?_⟩
  · simp [reviewMain, hparse, hao, hiss, hobj, hbe, hsk]
  · simp [reviewMain, hparse, hao, hiss, hobj, hbe, hsk]
  · simp [reviewMain, hparse, hao, hiss, hobj, hbe, hsk]
  · simp [reviewMain, hparse, hao, hiss, hobj, hbe, hsk]
  · intro i hi
    simp [reviewMain, hparse, hao, hiss, hobj, hbe, hsk, List.mem_map]
    have hmem := List.mem_filter.mp hi
    exact Or.inr (Or.inr (Or.inr (Or.inr (Or.inr (Or.inr ⟨i, ⟨hmem.1, hmem.2⟩, rfl⟩)))))

set_option maxRecDepth 200000 in
/-- C1 witness at concrete inputs. -/
theorem C1_skip_resolution_aborts_witness :
    (reviewMain (cs "adw-1") true ⟨some stA, true, [], some (cs "specs/plan-42.md"),
        ⟨true, outOneBlocker⟩, patchAllOk⟩).exitCode = 1 ∧
    (reviewMain (cs "adw-1") true ⟨some stA, true, [], some (cs "specs/plan-42.md"),
        ⟨true, outOneBlocker⟩, patchAllOk⟩).patchCalls = [] := by
  have h := C1_skip_resolution_aborts (cs "adw-1") [] (cs "specs/plan-42.md")
    outOneBlocker stA patchAllOk oneBlockerKvs [oneBlockerIssue] rfl rfl rfl
    (by
      rw [show List.filter isBlocker [oneBlockerIssue] = [oneBlockerIssue] from rfl]
      exact List.cons_ne_nil _ _)
    (by
      intro i hi
      rw [show List.filter isBlocker [oneBlockerIssue] = [oneBlockerIssue] from rfl] at hi
      cases hi with
      | head => exact ⟨rfl, rfl⟩
      | tail _ h' => cases h')
  exact ⟨h.1, h.2.1⟩

/-- C3: with resolution enabled, every patch succeeding, and the blocking
findings well formed, the review phase makes exactly one patch call per
blocking finding, in the order received, issues exactly one review-agent
request, saves state and exits 0. -/
theorem C3_one_patch_per_finding
    (adwId verr spec out : Str) (st : ADWSt) (pr : Nat → AgentResponse)
    (kvs : List (Str × JVal)) (xs : List JVal)
    (hparse : jsonParse (extractPayload out) = some (JVal.jobj kvs))
    (hiss : jGet kvs issuesKey = some (JVal.jarr xs))
    (hobj : xs.all (fun i => (asObj i).isSome) = true)
    (hwf : ∀ i ∈ xs.filter isBlocker, wfIssue i)
    (hpr : ∀ n, (pr n).success = true) :
    (reviewMain adwId false ⟨some st, true, verr, some spec, ⟨true, out⟩, pr⟩).exitCode
      = 0 ∧
    (reviewMain adwId false ⟨some st, true, verr, some spec, ⟨true, out⟩, pr⟩).patchCalls
      = (xs.filter isBlocker).map (toPatch spec st.worktreePath) ∧
    (reviewMain adwId false ⟨some st, true, verr, some spec,
        ⟨true, out⟩, pr⟩).patchCalls.length = (xs.filter isBlocker).length ∧
    (reviewMain adwId false ⟨some st, true, verr, some spec,
        ⟨true, out⟩, pr⟩).reviewRequests = [reviewReq adwId spec st.worktreePath] ∧
    (reviewMain adwId false ⟨some st, true, verr, some spec,
        ⟨true, out⟩, pr⟩).savedPhases = [cs "adw_review_iso"] := by
  have hao : asObj (JVal.jobj kvs) = some kvs := rfl
  have hlr := resolveLoop_all_ok spec st.worktreePath pr (xs.filter isBlocker) 0 hpr hwf
  rcases hxe : xs.filter isBlocker with _ | ⟨a, as⟩
  · refine ⟨?_, ?_, ?_, ?_, ?_⟩ <;>
      simp [reviewMain, hparse, hao, hiss, hobj, hxe, reviewReq]
  · rw [hxe] at hlr
    refine ⟨?_, ?_, ?_, ?_, ?_⟩ <;>
      simp [reviewMain, hparse, hao, hiss, hobj, hxe, hlr, reviewReq]

set_option maxRecDepth 200000 in
/-- C3 witness: two blocker findings, both patches succeed — exactly two
patch calls, one review request, exit 0. -/
theorem C3_one_patch_per_finding_witness :
    (∀ n, (patchAllOk n).success = true) ∧
    (reviewMain (cs "adw-1") false ⟨some stA, true, [], some (cs "specs/plan-42.md"),
        ⟨true, outTwoBlockers⟩, patchAllOk⟩).exitCode = 0 ∧
    (reviewMain (cs "adw-1") false ⟨some stA, true, [], some (cs "specs/plan-42.md"),
        ⟨true, outTwoBlockers⟩, patchAllOk⟩).patchCalls.length = 2 ∧
    (reviewMain (cs "adw-1") false ⟨some stA, true, [], some (cs "specs/plan-42.md"),
        ⟨true, outTwoBlockers⟩, patchAllOk⟩).reviewRequests
      = [reviewReq (cs "adw-1") (cs "specs/plan-42.md") stA.worktreePath] := by
  have h := C3_one_patch_per_finding (cs "adw-1") [] (cs "specs/plan-42.md")
    outTwoBlockers stA patchAllOk twoBlockerKvs [oneBlockerIssue, secondBlockerIssue]
    rfl rfl rfl
    (by
      intro i hi
      rw [show List.filter isBlocker [oneBlockerIssue, secondBlockerIssue]
            = [oneBlockerIssue, secondBlockerIssue] from rfl] at hi
      cases hi with
      | head => exact ⟨rfl, rfl, rfl, rfl⟩
      | tail _ h' =>
        cases h' with
        | head => exact ⟨rfl, rfl, rfl, rfl⟩
        | tail _ h'' => cases h'')
    (fun n => rfl)
  exact ⟨fun n => rfl, h.1, h.2.2.1.trans rfl, h.2.2.2.1⟩

/-- C8 (amended): when the patch for a blocking finding fails, the review
phase exits 1 without saving state, having made exactly one patch call per
attempted finding (earlier successful patches are not rolled back); the
failure log line attaches the failed patch response's output, while the
finding's description was logged at the start of its resolution attempt. -/
theorem C8_patch_failure_aborts
    (adwId verr spec out : Str) (st : ADWSt) (pr : Nat → AgentResponse)
    (kvs : List (Str × JVal)) (xs bs1 bs2 : List JVal) (bf : JVal)
    (hparse : jsonParse (extractPayload out) = some (JVal.jobj kvs))
    (hiss : jGet kvs issuesKey = some (JVal.jarr xs))
    (hobj : xs.all (fun i => (asObj i).isSome) = true)
    (hsplit : xs.filter isBlocker = bs1 ++ bf :: bs2)
    (hwf1 : ∀ i ∈ bs1, wfIssue i) (hwff : wfIssue bf)
    (hok : ∀ n, n < bs1.length → (pr n).success = true)
    (hfail : (pr bs1.length).success = false) :
    (reviewMain adwId false ⟨some st, true, verr, some spec, ⟨true, out⟩, pr⟩).exitCode
      = 1 ∧
    (reviewMain adwId false ⟨some st, true, verr, some spec, ⟨true, out⟩, pr⟩).patchCalls
      = (bs1 ++ [bf]).map (toPatch spec st.worktreePath) ∧
    errLog (cs "Failed to resolve issue: " ++ (pr bs1.length).output) ∈
      (reviewMain adwId false ⟨some st, true, verr, some spec, ⟨true, out⟩, pr⟩).logs ∧
    resolvingMsg bf ∈
      (reviewMain adwId false ⟨some st, true, verr, some spec, ⟨true, out⟩, pr⟩).logs ∧
    (reviewMain adwId false ⟨some st, true, verr, some spec,
        ⟨true, out⟩, pr⟩).savedPhases = [] := by
  have hao : asObj (JVal.jobj kvs) = some kvs := rfl
  have hok0 : ∀ n, n < bs1.length → (pr (0 + n)).success = true := by
    intro n hn
    simpa using hok n hn
  have hfail0 : (pr (0 + bs1.length)).success = false := by simpa using hfail
  have hlr := resolveLoop_fail spec st.worktreePath pr bs1 bf bs2 0 hwf1 hwff hok0 hfail0
  simp only [Nat.zero_add] at hlr
  refine ⟨?_, ?_, ?_, ?_, ?_⟩ <;>
    simp [reviewMain, hparse, hao, hiss, hobj, hsplit, hlr, List.mem_append]

set_option maxRecDepth 200000 in
/-- C8 witness at concrete inputs. -/
theorem C8_patch_failure_aborts_witness :
    (reviewMain (cs "adw-1") false ⟨some stA, true, [], some (cs "specs/plan-42.md"),
        ⟨true, outOneBlocker⟩, patchAllFail⟩).exitCode = 1 ∧
    (reviewMain (cs "adw-1") false ⟨some stA, true, [], some (cs "specs/plan-42.md"),
        ⟨true, outOneBlocker⟩, patchAllFail⟩).patchCalls.length = 1 ∧
    (reviewMain (cs "adw-1") false ⟨some stA, true, [], some (cs "specs/plan-42.md"),
        ⟨true, outOneBlocker⟩, patchAllFail⟩).savedPhases = [] := by
  have h := C8_patch_failure_aborts (cs "adw-1") [] (cs "specs/plan-42.md")
    outOneBlocker stA patchAllFail oneBlockerKvs [oneBlockerIssue] [] [] oneBlockerIssue
    rfl rfl rfl rfl
    (by intro i hi; cases hi)
    ⟨rfl, rfl, rfl, rfl⟩
    (by intro n hn; exact absurd hn (Nat.not_lt_zero n))
    rfl
  exact ⟨h.1, by rw [h.2.1]; rfl, h.2.2.2.2⟩

set_option maxRecDepth 200000 in
/-- C8 counterexample: the run aborts with exit 1, but the only
error-level log line carries the patch response's output ("boom"), and
the finding's description ("crash on save") does not occur in it — so
the description is not attached to the failure as the claim states. -/
theorem C8_counterexample :
    (reviewMain (cs "adw-1") false envC8).exitCode = 1 ∧
    (reviewMain (cs "adw-1") false envC8).logs.filter
        (fun e => decide (e.level = LogLevel.err))
      = [errLog (cs "Failed to resolve issue: boom")] ∧
    containsSub (cs "crash on save") (cs "Failed to resolve issue: boom") = false := by
  refine ⟨rfl, by decide, by decide⟩

/-! ### String lemmas for the payload extractor -/

/-- `isPre` characterised by append. -/
theorem isPre_iff (n : Str) : ∀ h : Str, isPre n h = true ↔ ∃ t, h = n ++ t := by
  induction n with
  | nil => intro h; simp [isPre]
  | cons a as ih =>
    intro h
    cases h with
    | nil =>
      simp [isPre]
    | cons b bs =>
      simp only [isPre, Bool.and_eq_true, beq_iff_eq, ih bs]
      constructor
      · rintro ⟨rfl, t, rfl⟩
        exact ⟨t, rfl⟩
      · rintro ⟨t, ht⟩
        injection ht with h1 h2
        exact ⟨h1.symm, t, h2⟩

/-- A list is a prefix of itself followed by anything. -/
theorem isPre_append_self (n t : Str) : isPre n (n ++ t) = true :=
  (isPre_iff n (n ++ t)).mpr ⟨t, rfl⟩

/-- A prefix is no longer than the list. -/
theorem isPre_length_le {n h : Str} (hp : isPre n h = true) : n.length ≤ h.length := by
  obtain ⟨t, rfl⟩ := (isPre_iff n h).mp hp
  simp

/-- A prefix of `s ++ t` no longer than `s` is a prefix of `s`. -/
theorem isPre_take : ∀ {n s : Str} (t : Str), isPre n (s ++ t) = true →
    n.length ≤ s.length → isPre n s = true := by
  intro n
  induction n with
  | nil => intro s t _ _; simp [isPre]
  | cons a as ih =>
    intro s t hp hl
    cases s with
    | nil => simp at hl
    | cons b bs =>
      simp only [List.cons_append, isPre, Bool.and_eq_true] at hp ⊢
      exact ⟨hp.1, ih t hp.2 (by simpa using hl)⟩

/-- A prefix of `s` is a prefix of `s ++ t`. -/
theorem isPre_mono {n s : Str} (t : Str) (hp : isPre n s = true) :
    isPre n (s ++ t) = true := by
  obtain ⟨r, rfl⟩ := (isPre_iff n s).mp hp
  rw [List.append_assoc]
  exact isPre_append_self n (r ++ t)

/-- A prefix of a longer pattern is itself a prefix. -/
theorem isPre_of_append_left {x y h : Str} (hp : isPre (x ++ y) h = true) :
    isPre x h = true := by
  obtain ⟨t, rfl⟩ := (isPre_iff (x ++ y) h).mp hp
  rw [List.append_assoc]
  exact isPre_append_self x (y ++ t)

/-- `findSub` returns 0 when the pattern is an immediate prefix. -/
theorem findSub_zero {n l : Str} (h : isPre n l = true) : findSub n l = some 0 := by
  cases l <;> simp [findSub, h]

/-- `findSub` steps over a non-matching head. -/
theorem findSub_cons_neg {n : Str} {c : Char} {t : Str}
    (h : isPre n (c :: t) = false) :
    findSub n (c :: t) = (findSub n t).map (fun i => i + 1) := by
  simp [findSub, h]

/-- A `findSub` hit is an occurrence. -/
theorem findSub_occ {n : Str} : ∀ {l : Str} {i : Nat}, findSub n l = some i →
    isPre n (l.drop i) = true := by
  intro l
  induction l with
  | nil =>
    intro i h
    by_cases hp : isPre n [] = true
    · simp [findSub, hp] at h
      subst h
      simpa using hp
    · simp [findSub, hp] at h
  | cons c t ih =>
    intro i h
    by_cases hp : isPre n (c :: t) = true
    · simp [findSub, hp] at h
      subst h
      simpa using hp
    · rw [findSub_cons_neg (by simpa using hp)] at h
      rcases hj : findSub n t with _ | j
      · rw [hj] at h; simp at h
      · rw [hj] at h
        simp at h
        subst h
        simpa [List.drop_succ_cons] using ih hj

/-- A `findSub` hit is the first occurrence. -/
theorem findSub_min {n : Str} : ∀ {l : Str} {i : Nat}, findSub n l = some i →
    ∀ j, j < i → isPre n (l.drop j) = false := by
  intro l
  induction l with
  | nil =>
    intro i h j hj
    by_cases hp : isPre n [] = true
    · simp [findSub, hp] at h; omega
    · simp [findSub, hp] at h
  | cons c t ih =>
    intro i h j hj
    by_cases hp : isPre n (c :: t) = true
    · simp [findSub, hp] at h; omega
    · have hp' : isPre n (c :: t) = false := by simpa using hp
      rw [findSub_cons_neg hp'] at h
      rcases hi : findSub n t with _ | i'
      · rw [hi] at h; simp at h
      · rw [hi] at h
        simp at h
        subst h
        cases j with
        | zero => simpa using hp'
        | succ j' =>
          rw [List.drop_succ_cons]
          exact ih hi j' (by omega)

/-- An occurrence bounds the first hit. -/
theorem findSub_le {n : Str} : ∀ {l : Str} {i : Nat}, isPre n (l.drop i) = true →
    ∃ j, j ≤ i ∧ findSub n l = some j := by
  intro l
  induction l with
  | nil =>
    intro i h
    rw [List.drop_nil] at h
    exact ⟨0, Nat.zero_le i, findSub_zero (by cases n <;> simp [isPre] at h ⊢)⟩
  | cons c t ih =>
    intro i h
    by_cases hp : isPre n (c :: t) = true
    · exact ⟨0, Nat.zero_le i, findSub_zero hp⟩
    · have hp' : isPre n (c :: t) = false := by simpa using hp
      cases i with
      | zero => rw [List.drop_zero] at h; rw [h] at hp'; cases hp'
      | succ i' =>
        rw [List.drop_succ_cons] at h
        obtain ⟨j, hle, hfs⟩ := ih h
        refine ⟨j + 1, by omega, ?_⟩
        rw [findSub_cons_neg hp', hfs]
        rfl

/-- Characterisation of the first occurrence. -/
theorem findSub_first {n l : Str} {i : Nat} (hocc : isPre n (l.drop i) = true)
    (hmin : ∀ j, j < i → isPre n (l.drop j) = false) : findSub n l = some i := by
  obtain ⟨j, hle, hfs⟩ := findSub_le hocc
  rcases Nat.lt_or_eq_of_le hle with hlt | rfl
  · have := findSub_occ hfs
    rw [hmin j hlt] at this
    cases this
  · exact hfs

/-- No occurrence anywhere means `findSub` misses. -/
theorem findSub_none {n l : Str} (h : ∀ i, isPre n (l.drop i) = false) :
    findSub n l = none := by
  rcases hfs : findSub n l with _ | i
  · rfl
  · have := findSub_occ hfs
    rw [h i] at this
    cases this

/-- A `findSub` miss means no occurrence anywhere. -/
theorem findSub_none_occ {n l : Str} (h : findSub n l = none) :
    ∀ i, isPre n (l.drop i) = false := by
  intro i
  by_contra hcon
  have ht : isPre n (l.drop i) = true := eq_true_of_ne_false hcon
  obtain ⟨j, _, hfs⟩ := findSub_le ht
  rw [h] at hfs
  cases hfs

/-- An occurrence witnesses containment. -/
theorem containsSub_occ {n l : Str} (i : Nat) (h : isPre n (l.drop i) = true) :
    containsSub n l = true := by
  obtain ⟨j, _, hfs⟩ := findSub_le h
  simp [containsSub, hfs]

/-- Dropping past an appended prefix. -/
theorem dropAppendLen (xs ys : Str) (k : Nat) :
    (xs ++ ys).drop (xs.length + k) = ys.drop k := by
  induction xs with
  | nil => simp
  | cons x xs ih =>
    have h : (x :: xs).length + k = (xs.length + k) + 1 := by
      simp [List.length_cons]
      omega
    rw [List.cons_append, h, List.drop_succ_cons]
    exact ih

/-- Dropping inside an appended prefix. -/
theorem dropAppendLe (xs ys : Str) (k : Nat) (h : k ≤ xs.length) :
    (xs ++ ys).drop k = xs.drop k ++ ys := by
  induction xs generalizing k with
  | nil =>
    have : k = 0 := by simpa using h
    subst this
    simp
  | cons x xs ih =>
    cases k with
    | zero => simp
    | succ k' =>
      rw [List.cons_append, List.drop_succ_cons, List.drop_succ_cons]
      exact ih k' (by simpa using h)

/-- Taking past an appended prefix. -/
theorem takeAppendLen (xs ys : Str) (k : Nat) :
    (xs ++ ys).take (xs.length + k) = xs ++ ys.take k := by
  induction xs with
  | nil => simp
  | cons x xs ih =>
    have h : (x :: xs).length + k = (xs.length + k) + 1 := by
      simp [List.length_cons]
      omega
    rw [List.cons_append, h, List.take_succ_cons, ih, List.cons_append]

/-- `strip` ignores a leading whitespace character. -/
theorem strip_cons_ws {c : Char} (l : Str) (h : pyWs c = true) :
    strip (c :: l) = strip l := by
  simp [strip, List.dropWhile_cons, h]

/-- `strip` ignores a trailing whitespace character. -/
theorem strip_append_ws {c : Char} (h : pyWs c = true) :
    ∀ l : Str, strip (l ++ [c]) = strip l := by
  intro l
  induction l with
  | nil => simp [strip, List.dropWhile, h]
  | cons x l' ih =>
    by_cases hx : pyWs x = true
    · rw [List.cons_append, strip_cons_ws _ hx, strip_cons_ws _ hx, ih]
    · have hx' : pyWs x = false := by simpa using hx
      simp [strip, List.dropWhile_cons, hx', List.reverse_append, List.reverse_cons, h]

/-- `strip` fixes a list with non-whitespace first and last characters. -/
theorem strip_id_shape (c d : Char) (m : Str) (hc : pyWs c = false)
    (hd : pyWs d = false) : strip (c :: (m ++ [d])) = c :: (m ++ [d]) := by
  simp [strip, List.dropWhile_cons, hc, hd, List.reverse_append, List.reverse_cons]

/-- The backtick is not whitespace, not a newline. -/
theorem tick_ne_nl : (tick == nl) = false := by decide

/-- A fence cannot start at a non-backtick character. -/
theorem fence_head_false {c : Char} (X : Str) (hc : (tick == c) = false) :
    isPre fence (c :: X) = false := by
  simp [fence, isPre, hc]

/-- A fence cannot match when its second character misses. -/
theorem fence_head2_false {c : Char} (X : Str) (hc : (tick == c) = false) :
    isPre fence (tick :: c :: X) = false := by
  simp [fence, isPre, hc]

/-- A fence cannot match when its third character misses. -/
theorem fence_head3_false {c : Char} (X : Str) (hc : (tick == c) = false) :
    isPre fence (tick :: tick :: c :: X) = false := by
  simp [fence, isPre, hc]

/-- A json fence match gives a plain fence match. -/
theorem fenceJson_to_fence {X : Str} (h : isPre fenceJson X = true) :
    isPre fence X = true :=
  isPre_of_append_left (x := fence) (y := jsonTag)
    (by rw [show fence ++ jsonTag = fenceJson from rfl]; exact h)

/-- In `p ++ "\n" ++ fence` with `p` fence-free, the only fence
occurrence is right after the newline. -/
theorem fence_occ_tail (p : Str) (hff : findSub fence p = none) :
    ∀ k, isPre fence ((p ++ nl :: fence).drop k) = true → k = p.length + 1 := by
  intro k hk
  rcases Nat.lt_or_ge k (p.length + 1) with hlt | hge
  · exfalso
    have hk' : k ≤ p.length := by omega
    rw [dropAppendLe _ _ _ hk'] at hk
    rcases hs : p.drop k with _ | ⟨a, s1⟩
    · rw [hs] at hk
      simp only [List.nil_append] at hk
      rw [fence_head_false _ tick_ne_nl] at hk
      cases hk
    · rcases s1 with _ | ⟨b, s2⟩
      · rw [hs] at hk
        simp [fence, isPre, tick_ne_nl] at hk
      · rcases s2 with _ | ⟨c, s3⟩
        · rw [hs] at hk
          simp [fence, isPre, tick_ne_nl] at hk
        · rw [hs] at hk
          have h3 : isPre fence (a :: b :: c :: s3) = true := by
            refine isPre_take (nl :: fence) ?_ ?_
            · simpa using hk
            · simp [fence]
          have hocc : isPre fence (p.drop k) = true := by rw [hs]; exact h3
          have hf := findSub_none_occ hff k
          rw [hf] at hocc
          cases hocc
  · obtain ⟨m, rfl⟩ : ∃ m, k = p.length + 1 + m := ⟨k - (p.length + 1), by omega⟩
    cases m with
    | zero => rfl
    | succ m' =>
      exfalso
      rw [show p.length + 1 + (m' + 1) = p.length + (m' + 2) from by omega,
        dropAppendLen] at hk
      have hlen := isPre_length_le hk
      simp [fence, List.length_drop] at hlen
      omega

/-- First fence occurrence in `p ++ "\n" ++ fence` for fence-free `p`. -/
theorem findFenceTail (p : Str) (hff : findSub fence p = none) :
    findSub fence (p ++ nl :: fence) = some (p.length + 1) := by
  apply findSub_first
  · have hdrop : (p ++ nl :: fence).drop (p.length + 1) = fence := by
      rw [dropAppendLen p (nl :: fence) 1]
      rfl
    rw [hdrop]
    have := isPre_append_self fence []
    rwa [List.append_nil] at this
  · intro j hj
    by_contra hcon
    have ht := eq_true_of_ne_false hcon
    have := fence_occ_tail p hff j ht
    omega

/-- No json fence occurs anywhere in `p ++ "\n" ++ fence` for fence-free
`p`. -/
theorem noFenceJsonTail (p : Str) (hff : findSub fence p = none) :
    ∀ m, isPre fenceJson ((p ++ nl :: fence).drop m) = false := by
  intro m
  by_contra hcon
  have htrue := eq_true_of_ne_false hcon
  have hfence := fenceJson_to_fence htrue
  have hm := fence_occ_tail p hff m hfence
  subst hm
  have hdrop : (p ++ nl :: fence).drop (p.length + 1) = fence := by
    rw [dropAppendLen p (nl :: fence) 1]
    rfl
  rw [hdrop] at htrue
  have hlen := isPre_length_le htrue
  simp [fence, fenceJson] at hlen

/-- First newline occurrence after a newline-free tag. -/
theorem findNlAfterLang (lang rest : Str) (hln : ∀ c ∈ lang, c ≠ nl) :
    findSub nlStr (lang ++ nl :: rest) = some lang.length := by
  apply findSub_first
  · rw [show (lang ++ nl :: rest).drop lang.length
        = (nl :: rest).drop 0 from dropAppendLen lang (nl :: rest) 0]
    simp [nlStr, isPre]
  · intro j hj
    rw [dropAppendLe _ _ _ (by omega)]
    rcases hs : lang.drop j with _ | ⟨c, s⟩
    · exfalso
      have := congrArg List.length hs
      simp [List.length_drop] at this
      omega
    · have hc : c ∈ lang := by
        have hmem : c ∈ lang.drop j := by
          rw [hs]
          exact List.mem_cons_self _ _
        exact List.mem_of_mem_drop hmem
      have hcn : (nl == c) = false := beq_eq_false_iff_ne.mpr (Ne.symm (hln c hc))
      simp [nlStr, isPre, hcn]

/-- The tag "json" cannot match against a newline-terminated non-json
tag. -/
theorem jsonTag_no_match (lang rest : Str) (hjt : isPre jsonTag lang = false) :
    isPre jsonTag (lang ++ nl :: rest) = false := by
  rcases lang with _ | ⟨a, _ | ⟨b, _ | ⟨c, _ | ⟨d, l4⟩⟩⟩⟩
  · simp [jsonTag, isPre, show ((('j' : Char) == nl) = false) from by decide]
  · simp [jsonTag, isPre, show ((('s' : Char) == nl) = false) from by decide]
  · simp [jsonTag, isPre, show ((('o' : Char) == nl) = false) from by decide]
  · simp [jsonTag, isPre, show ((('n' : Char) == nl) = false) from by decide]
  · by_contra hcon
    have ht := eq_true_of_ne_false hcon
    have := isPre_take (t := nl :: rest) (s := a :: b :: c :: d :: l4)
      (by simpa using ht) (by simp [jsonTag])
    rw [hjt] at this
    cases this

/-- No json fence occurs anywhere in a generically fenced payload whose
tag has no backtick, no newline and is not "json"-prefixed and whose body
is fence-free. -/
theorem noFenceJsonHayL (lang p : Str) (hff : findSub fence p = none)
    (hlt : ∀ c ∈ lang, c ≠ tick)
    (hjt : isPre jsonTag lang = false) :
    findSub fenceJson (fence ++ (lang ++ nl :: (p ++ nl :: fence))) = none := by
  apply findSub_none
  intro k
  rcases k with _ | _ | _ | m
  · simp only [List.drop_zero, fence, fenceJson, List.cons_append, List.nil_append,
      isPre, beq_self_eq_true, Bool.true_and]
    exact jsonTag_no_match lang _ hjt
  · by_contra hcon
    have ht := fenceJson_to_fence (eq_true_of_ne_false hcon)
    simp only [fence, List.cons_append, List.nil_append, List.drop_succ_cons,
      List.drop_zero] at ht
    rcases hl : lang with _ | ⟨a, l'⟩
    · rw [hl] at ht
      simp [isPre, tick_ne_nl] at ht
    · have ha : (tick == a) = false :=
        beq_eq_false_iff_ne.mpr (Ne.symm (hlt a (by rw [hl]; exact List.mem_cons_self _ _)))
      rw [hl] at ht
      simp [isPre, ha] at ht
  · by_contra hcon
    have ht := fenceJson_to_fence (eq_true_of_ne_false hcon)
    simp only [fence, List.cons_append, List.nil_append, List.drop_succ_cons,
      List.drop_zero] at ht
    rcases hl : lang with _ | ⟨a, l'⟩
    · rw [hl] at ht
      simp [isPre, tick_ne_nl] at ht
    · have ha : (tick == a) = false :=
        beq_eq_false_iff_ne.mpr (Ne.symm (hlt a (by rw [hl]; exact List.mem_cons_self _ _)))
      rw [hl] at ht
      simp [isPre, ha] at ht
  · have hdrop : (fence ++ (lang ++ nl :: (p ++ nl :: fence))).drop (m + 1 + 1 + 1)
        = (lang ++ nl :: (p ++ nl :: fence)).drop m := by
      have h3 := dropAppendLen fence (lang ++ nl :: (p ++ nl :: fence)) m
      rw [show m + 1 + 1 + 1 = fence.length + m from by simp [fence]; omega]
      exact h3
    rw [hdrop]
    rcases Nat.lt_or_ge m lang.length with hm | hm
    · rw [dropAppendLe _ _ _ (le_of_lt hm)]
      rcases hs : lang.drop m with _ | ⟨c, s⟩
      · exfalso
        have := congrArg List.length hs
        simp [List.length_drop] at this
        omega
      · have hc : c ∈ lang :=
          List.mem_of_mem_drop (by rw [hs]; exact List.mem_cons_self c s)
        have hcn : (tick == c) = false := beq_eq_false_iff_ne.mpr (Ne.symm (hlt c hc))
        by_contra hcon
        have ht := fenceJson_to_fence (eq_true_of_ne_false hcon)
        rw [List.cons_append, fence_head_false _ hcn] at ht
        cases ht
    · rcases Nat.eq_or_lt_of_le hm with heq | hlt2
      · rw [show m = lang.length from heq.symm,
          show (lang ++ nl :: (p ++ nl :: fence)).drop lang.length
            = nl :: (p ++ nl :: fence) from by simp]
        by_contra hcon
        have ht := fenceJson_to_fence (eq_true_of_ne_false hcon)
        rw [fence_head_false _ tick_ne_nl] at ht
        cases ht
      · obtain ⟨m2, rfl⟩ : ∃ m2, m = lang.length + (m2 + 1) :=
          ⟨m - lang.length - 1, by omega⟩
        rw [dropAppendLen lang _ (m2 + 1), List.drop_succ_cons]
        exact noFenceJsonTail p hff m2

/-- Containment survives embedding between other text. -/
theorem containsSub_append (n x p y : Str) (hn : n ≠ [])
    (h : containsSub n p = true) : containsSub n (x ++ (p ++ y)) = true := by
  obtain ⟨i, hfs⟩ : ∃ i, findSub n p = some i := by
    rcases hq : findSub n p with _ | i
    · rw [containsSub, hq] at h
      cases h
    · exact ⟨i, rfl⟩
  have hocc := findSub_occ hfs
  have hip : i ≤ p.length := by
    by_contra hgt
    have hnil : p.drop i = [] := List.drop_eq_nil_of_le (by omega)
    rw [hnil] at hocc
    rcases n with _ | ⟨a, as⟩
    · exact hn rfl
    · simp [isPre] at hocc
  have hocc2 : isPre n ((x ++ (p ++ y)).drop (x.length + i)) = true := by
    rw [dropAppendLen x (p ++ y) i, dropAppendLe p y i hip]
    exact isPre_mono y hocc
  exact containsSub_occ _ hocc2

/-- A fence-free stripped payload passes through the extractor
unchanged. -/
theorem extract_bare (p : Str) (hst : strip p = p) (hff : findSub fence p = none) :
    extractPayload p = p := by
  have hcj : containsSub fenceJson p = false := by
    rw [containsSub, findSub_none]
    · rfl
    · intro i
      by_contra hcon
      have ht := fenceJson_to_fence (eq_true_of_ne_false hcon)
      rw [findSub_none_occ hff i] at ht
      cases ht
  have hcf : containsSub fence p = false := by simp [containsSub, hff]
  simp only [extractPayload, hst, hcj, hcf, Bool.false_and, Bool.false_eq_true,
    if_false]

/-- A fence-free stripped payload wrapped in a json-tagged fenced block
extracts to the payload itself. -/
theorem extract_jsonWrap (p : Str) (hst : strip p = p) (hff : findSub fence p = none) :
    extractPayload (fenceJson ++ nl :: (p ++ nl :: fence)) = p := by
  have hshape : fenceJson ++ nl :: (p ++ nl :: fence)
      = tick :: ((tick :: tick :: 'j' :: 's' :: 'o' :: 'n' :: nl ::
          (p ++ [nl, tick, tick])) ++ [tick]) := by
    simp [fenceJson, fence, List.append_assoc]
  have hstrip : strip (fenceJson ++ nl :: (p ++ nl :: fence))
      = fenceJson ++ nl :: (p ++ nl :: fence) := by
    rw [hshape]
    exact strip_id_shape _ _ _ (by decide) (by decide)
  have hfj0 : findSub fenceJson (fenceJson ++ nl :: (p ++ nl :: fence)) = some 0 :=
    findSub_zero (isPre_append_self _ _)
  have hcj : containsSub fenceJson (fenceJson ++ nl :: (p ++ nl :: fence)) = true := by
    simp [containsSub, hfj0]
  have hdrop7 : (fenceJson ++ nl :: (p ++ nl :: fence)).drop 7
      = nl :: (p ++ nl :: fence) := by
    simp [fenceJson]
  have hfenceNl : findSub fence (nl :: (p ++ nl :: fence)) = some (p.length + 2) := by
    rw [findSub_cons_neg (fence_head_false _ tick_ne_nl), findFenceTail p hff]
    rfl
  have hfrom : findFrom fence (fenceJson ++ nl :: (p ++ nl :: fence)) 7
      = some (p.length + 9) := by
    rw [findFrom, hdrop7, hfenceNl]
    simp [Option.map]
  have hslice : pySlice (fenceJson ++ nl :: (p ++ nl :: fence)) 7 (p.length + 9)
      = nl :: (p ++ [nl]) := by
    rw [pySlice, hdrop7, show p.length + 9 - 7 = p.length + 2 from by omega]
    rw [show p.length + 2 = (p.length + 1) + 1 from by omega, List.take_succ_cons,
      takeAppendLen p (nl :: fence) 1]
    rfl
  have hstripSlice : strip (nl :: (p ++ [nl])) = p := by
    rw [strip_cons_ws _ (by decide), strip_append_ws (by decide), hst]
  simp only [extractPayload, hstrip, hcj, if_true, hfj0, Option.getD_some, hfrom,
    hslice, hstripSlice, Nat.zero_add]

/-- A fence-free stripped payload wrapped in a generic fenced block with
a language tag (no backtick, no newline, not "json"-prefixed) extracts to
the payload itself; the tag may be empty. -/
theorem extract_langWrap (lang p : Str)
    (hst : strip p = p) (hff : findSub fence p = none)
    (hbr : containsSub braceStr p = true)
    (hlt : ∀ c ∈ lang, c ≠ tick) (hln : ∀ c ∈ lang, c ≠ nl)
    (hjt : isPre jsonTag lang = false) :
    extractPayload (fence ++ (lang ++ nl :: (p ++ nl :: fence))) = p := by
  have hshape : fence ++ (lang ++ nl :: (p ++ nl :: fence))
      = tick :: ((tick :: tick :: (lang ++ nl :: (p ++ [nl, tick, tick]))) ++ [tick]) := by
    simp [fence, List.append_assoc]
  have hstrip : strip (fence ++ (lang ++ nl :: (p ++ nl :: fence)))
      = fence ++ (lang ++ nl :: (p ++ nl :: fence)) := by
    rw [hshape]
    exact strip_id_shape _ _ _ (by decide) (by decide)
  have hnoj := noFenceJsonHayL lang p hff hlt hjt
  have hcj : containsSub fenceJson (fence ++ (lang ++ nl :: (p ++ nl :: fence)))
      = false := by
    simp [containsSub, hnoj]
  have hf0 : findSub fence (fence ++ (lang ++ nl :: (p ++ nl :: fence))) = some 0 :=
    findSub_zero (isPre_append_self fence _)
  have hcf : containsSub fence (fence ++ (lang ++ nl :: (p ++ nl :: fence))) = true := by
    simp [containsSub, hf0]
  have hshape2 : fence ++ (lang ++ nl :: (p ++ nl :: fence))
      = (fence ++ lang ++ [nl]) ++ (p ++ nl :: fence) := by
    simp [List.append_assoc]
  have hbrh : containsSub braceStr (fence ++ (lang ++ nl :: (p ++ nl :: fence)))
      = true := by
    rw [hshape2]
    exact containsSub_append braceStr _ p _ (by simp [braceStr]) hbr
  have hdrop3 : (fence ++ (lang ++ nl :: (p ++ nl :: fence))).drop 3
      = lang ++ nl :: (p ++ nl :: fence) := by
    simp [fence]
  have hnlfind : findFrom nlStr (fence ++ (lang ++ nl :: (p ++ nl :: fence))) 3
      = some (lang.length + 3) := by
    rw [findFrom, hdrop3, findNlAfterLang lang _ hln]
    simp [Option.map]
  have hdropS : (fence ++ (lang ++ nl :: (p ++ nl :: fence))).drop (lang.length + 3 + 1)
      = p ++ nl :: fence := by
    rw [hshape2,
      show lang.length + 3 + 1 = (fence ++ lang ++ [nl]).length + 0 from by
        simp [fence]]
    simp
  have hfrom2 : findFrom fence (fence ++ (lang ++ nl :: (p ++ nl :: fence)))
      (lang.length + 3 + 1) = some (p.length + 1 + (lang.length + 3 + 1)) := by
    rw [findFrom, hdropS, findFenceTail p hff]
    simp [Option.map]
  have hslice2 : pySlice (fence ++ (lang ++ nl :: (p ++ nl :: fence)))
      (lang.length + 3 + 1) (p.length + 1 + (lang.length + 3 + 1)) = p ++ [nl] := by
    rw [pySlice, hdropS,
      show p.length + 1 + (lang.length + 3 + 1) - (lang.length + 3 + 1)
        = p.length + 1 from by omega,
      takeAppendLen p (nl :: fence) 1]
    rfl
  have hstrip2 : strip (p ++ [nl]) = p := by
    rw [strip_append_ws (by decide), hst]
  simp only [extractPayload, hstrip, hcj, Bool.false_eq_true, if_false, hcf, hbrh,
    Bool.and_self, if_true, hf0, Option.getD_some, Nat.zero_add, hnlfind, hfrom2,
    hslice2, hstrip2]

/-- C9 (amended): for every fence-free, stripped review payload (and,
for the generic fenced form, a language tag containing no backtick or
newline and not beginning with "json"), the extractor accepts the bare
payload, the json-tagged fenced form, and the generic fenced form with or
without a language tag, and the wrapped forms extract — and hence parse —
to the same review outcome as the bare payload. -/
theorem C9_fenced_payload_equivalence (p lang : Str)
    (hst : strip p = p) (hff : findSub fence p = none)
    (hbr : containsSub braceStr p = true)
    (hlt : ∀ c ∈ lang, c ≠ tick) (hln : ∀ c ∈ lang, c ≠ nl)
    (hjt : isPre jsonTag lang = false) :
    extractPayload p = p ∧
    extractPayload (fenceJson ++ nl :: (p ++ nl :: fence)) = p ∧
    extractPayload (fence ++ nl :: (p ++ nl :: fence)) = p ∧
    extractPayload (fence ++ (lang ++ nl :: (p ++ nl :: fence))) = p ∧
    jsonParse (extractPayload (fenceJson ++ nl :: (p ++ nl :: fence)))
      = jsonParse (extractPayload p) := by
  have hb := extract_bare p hst hff
  have hj := extract_jsonWrap p hst hff
  have hl := extract_langWrap lang p hst hff hbr hlt hln hjt
  have hplain : extractPayload (fence ++ nl :: (p ++ nl :: fence)) = p := by
    have h0 := extract_langWrap [] p hst hff hbr (by intro c hc; cases hc)
      (by intro c hc; cases hc) (by simp [jsonTag, isPre])
    simpa using h0
  exact ⟨hb, hj, hplain, hl, by rw [hj, hb]⟩

set_option maxRecDepth 200000 in
/-- C9 witness at concrete inputs. -/
theorem C9_fenced_payload_equivalence_witness :
    (strip pWitness = pWitness ∧ findSub fence pWitness = none ∧
     containsSub braceStr pWitness = true) ∧
    extractPayload pWitness = pWitness ∧
    extractPayload (fenceJson ++ nl :: (pWitness ++ nl :: fence)) = pWitness ∧
    extractPayload (fence ++ (langWitness ++ nl :: (pWitness ++ nl :: fence)))
      = pWitness :=
  ⟨⟨by decide, by decide, by decide⟩,
   (C9_fenced_payload_equivalence pWitness langWitness (by decide) (by decide)
      (by decide) (by decide) (by decide) (by decide)).1,
   (C9_fenced_payload_equivalence pWitness langWitness (by decide) (by decide)
      (by decide) (by decide) (by decide) (by decide)).2.1,
   (C9_fenced_payload_equivalence pWitness langWitness (by decide) (by decide)
      (by decide) (by decide) (by decide) (by decide)).2.2.2.1⟩

set_option maxRecDepth 200000 in
/-- C9 counterexample: for a review payload whose text itself contains a
triple-backtick fence, the json-fenced wrapped form does not parse to the
same outcome as the bare payload — the bare run completes with exit 0
while the wrapped run fails to parse and exits 1. -/
theorem C9_counterexample :
    (reviewMain (cs "adw-1") false ⟨some stA, true, [], some (cs "specs/plan-42.md"),
        ⟨true, cexPayload⟩, patchAllOk⟩).exitCode = 0 ∧
    (reviewMain (cs "adw-1") false ⟨some stA, true, [], some (cs "specs/plan-42.md"),
        ⟨true, fenceJson ++ nl :: (cexPayload ++ nl :: fence)⟩, patchAllOk⟩).exitCode
      = 1 ∧
    extractPayload cexPayload = cexPayload ∧
    jsonParse (extractPayload (fenceJson ++ nl :: (cexPayload ++ nl :: fence)))
      = none :=
  ⟨rfl, rfl, rfl, rfl⟩
